import Mathlib

/-!
Verification development for the bridgegui frontend (client-side protocol
layer): wire codec, message queue dispatcher and session event handling,
shallowly embedded from `bridgegui/messaging.py`, `bridgegui/__main__.py`
and `bridgegui/score.py`.
-/

set_option maxHeartbeats 1000000
set_option linter.unusedVariables false

/-- Decoded protocol argument values: the JSON data model used by the wire
codec (`json.dumps` / `json.loads` in the source). Supported kinds per the
spec: null, boolean, integer, string, nested sequence and mapping. -/
inductive JValue where
  | null : JValue
  | bool (b : Bool) : JValue
  | int (n : Int) : JValue
  | str (s : String) : JValue
  | arr (xs : List JValue) : JValue
  | obj (kvs : List (String × JValue)) : JValue

mutual

/-- Boolean equality on values, mirroring Python `==` on decoded JSON data
(for mappings this is order-sensitive where Python dict equality is not;
decoded payload mappings carry their key order, so this is faithful for the
uses below, which compare scalars). -/
def JValue.beq : JValue → JValue → Bool
  | .null, .null => true
  | .bool a, .bool b => a == b
  | .int a, .int b => a == b
  | .str a, .str b => a == b
  | .arr xs, .arr ys => JValue.beqArr xs ys
  | .obj xs, .obj ys => JValue.beqObj xs ys
  | _, _ => false

def JValue.beqArr : List JValue → List JValue → Bool
  | [], [] => true
  | x :: xs, y :: ys => JValue.beq x y && JValue.beqArr xs ys
  | _, _ => false

def JValue.beqObj : List (String × JValue) → List (String × JValue) → Bool
  | [], [] => true
  | (k, v) :: xs, (l, w) :: ys => k == l && JValue.beq v w && JValue.beqObj xs ys
  | _, _ => false

end

mutual

/-- Size measure of a value, used as parser fuel bound. -/
def JValue.size : JValue → Nat
  | .arr xs => 1 + JValue.sizeArr xs
  | .obj kvs => 1 + JValue.sizeObj kvs
  | _ => 1

def JValue.sizeArr : List JValue → Nat
  | [] => 1
  | x :: xs => 1 + JValue.size x + JValue.sizeArr xs

def JValue.sizeObj : List (String × JValue) → Nat
  | [] => 1
  | (_, v) :: kvs => 2 + JValue.size v + JValue.sizeObj kvs

end

/-! ## JSON text codec

Modelled from the spec: argument values travel in a structured,
human-readable text form (Python json.dumps / json.loads in the source,
which are standard-library code outside this repository). The encoder
follows json.dumps item separators (", " and ": ") and escapes the quote,
the backslash and control characters; the decoder is a strict
recursive-descent reader of that grammar with JSON whitespace skipping. -/

/-- The decimal digit character for d below 10. -/
def digitChar : Nat → Char
  | 0 => '0'
  | 1 => '1'
  | 2 => '2'
  | 3 => '3'
  | 4 => '4'
  | 5 => '5'
  | 6 => '6'
  | 7 => '7'
  | 8 => '8'
  | 9 => '9'
  | _ => '0'

/-- The lowercase hexadecimal digit character for d below 16. -/
def hexDigitChar : Nat → Char
  | 10 => 'a'
  | 11 => 'b'
  | 12 => 'c'
  | 13 => 'd'
  | 14 => 'e'
  | 15 => 'f'
  | d => digitChar d

/-- Decimal digits of a natural number, most significant first. -/
def encNat (n : Nat) : List Char :=
  if n = 0 then ['0'] else (Nat.digits 10 n).reverse.map digitChar

/-- Decimal encoding of an integer. -/
def encInt : Int → List Char
  | .ofNat m => encNat m
  | .negSucc m => '-' :: encNat (m + 1)

/-- The low \u00XX escape of a control character code. -/
def uEscape (n : Nat) : List Char :=
  '\\' :: 'u' :: '0' :: '0' :: hexDigitChar (n / 16) :: [hexDigitChar (n % 16)]

/-- The escape of one string character: the quote and the backslash get a
backslash escape, control characters a \u00XX escape, anything else stands
for itself. -/
def escChar (c : Char) : List Char :=
  if c = '"' then ['\\', '"']
  else if c = '\\' then ['\\', '\\']
  else if c.toNat < 32 then uEscape c.toNat
  else [c]

/-- The escaped body of a string literal. -/
def encStrChars : List Char → List Char
  | [] => []
  | c :: cs => escChar c ++ encStrChars cs

/-- The characters of the null literal. -/
def nullChars : List Char :=
  'n' :: 'u' :: 'l' :: ['l']

/-- The characters of a boolean literal. -/
def boolChars : Bool → List Char
  | true => 't' :: 'r' :: 'u' :: ['e']
  | false => 'f' :: 'a' :: 'l' :: 's' :: ['e']

mutual

/-- The JSON text of a value, as a character list. -/
def encV : JValue → List Char
  | .null => nullChars
  | .bool b => boolChars b
  | .int n => encInt n
  | .str s => '"' :: (encStrChars s.data ++ ['"'])
  | .arr [] => ['[', ']']
  | .arr (x :: xs) => '[' :: (encV x ++ encArrTail xs ++ [']'])
  | .obj [] => ['\x7b', '\x7d']
  | .obj ((k, v) :: kvs) =>
    '\x7b' :: (encMember k v ++ encObjTail kvs ++ ['\x7d'])

/-- One key: value member. -/
def encMember (k : String) (v : JValue) : List Char :=
  '"' :: (encStrChars k.data ++ '"' :: ':' :: ' ' :: encV v)

/-- ", "-separated further array elements. -/
def encArrTail : List JValue → List Char
  | [] => []
  | x :: xs => ',' :: ' ' :: (encV x ++ encArrTail xs)

/-- ", "-separated further object members. -/
def encObjTail : List (String × JValue) → List Char
  | [] => []
  | (k, v) :: kvs => ',' :: ' ' :: (encMember k v ++ encObjTail kvs)

end

/-- json.dumps of a supported value. -/
def jsonEncode (v : JValue) : String :=
  ⟨encV v⟩

/-- JSON whitespace characters. -/
def wsChar (c : Char) : Bool :=
  c = ' ' || c = '\t' || c = '\n' || c = '\r'

/-- Skip JSON whitespace. -/
def skipWs : List Char → List Char
  | [] => []
  | c :: cs => if wsChar c then skipWs cs else c :: cs

/-- The value of a hexadecimal digit character. -/
def hexVal (c : Char) : Option Nat :=
  if '0' ≤ c ∧ c ≤ '9' then some (c.toNat - 48)
  else if 'a' ≤ c ∧ c ≤ 'f' then some (c.toNat - 87)
  else if 'A' ≤ c ∧ c ≤ 'F' then some (c.toNat - 55)
  else none

/-- The unescaped character of a single-character escape, if a valid one. -/
def escCode (e : Char) : Option Char :=
  if e = '"' then some '"'
  else if e = '\\' then some '\\'
  else if e = '/' then some '/'
  else if e = 'b' then some '\x08'
  else if e = 'f' then some '\x0c'
  else if e = 'n' then some '\n'
  else if e = 'r' then some '\r'
  else if e = 't' then some '\t'
  else none

/-- Read a string body up to its closing quote, resolving escapes. -/
def pStrChars : List Char → Option (List Char × List Char)
  | [] => none
  | c :: rest =>
    if c = '"' then some ([], rest)
    else if c = '\\' then
      match rest with
      | [] => none
      | e :: rest2 =>
        if e = 'u' then
          match rest2 with
          | h1 :: h2 :: h3 :: h4 :: rest3 =>
            match hexVal h1, hexVal h2, hexVal h3, hexVal h4 with
            | some a, some b, some x, some d =>
              match pStrChars rest3 with
              | some (cs, r) =>
                some (Char.ofNat (4096 * a + 256 * b + 16 * x + d) :: cs, r)
              | none => none
            | _, _, _, _ => none
          | _ => none
        else
          match escCode e with
          | some u =>
            match pStrChars rest2 with
            | some (cs, r) => some (u :: cs, r)
            | none => none
          | none => none
    else
      match pStrChars rest with
      | some (cs, r) => some (c :: cs, r)
      | none => none

/-- Accumulate a maximal run of decimal digits. -/
def pDigits (acc : Nat) : List Char → Nat × List Char
  | [] => (acc, [])
  | c :: cs =>
    if c.isDigit then pDigits (10 * acc + (c.toNat - 48)) cs else (acc, c :: cs)

/-- Read a decimal integer (an optional minus sign, then digits). -/
def pInt : List Char → Option (Int × List Char)
  | [] => none
  | c :: cs =>
    if c = '-' then
      match cs with
      | [] => none
      | c2 :: cs2 =>
        if c2.isDigit then
          match pDigits (c2.toNat - 48) cs2 with
          | (n, rest) => some (-(n : Int), rest)
        else none
    else if c.isDigit then
      match pDigits (c.toNat - 48) cs with
      | (n, rest) => some ((n : Int), rest)
    else none

/-- Expect a literal character sequence. -/
def expectLit : List Char → List Char → Option (List Char)
  | [], input => some input
  | c :: cs, d :: input => if c = d then expectLit cs input else none
  | _ :: _, [] => none

mutual

/-- Fuel-bounded recursive-descent value reader. -/
def pValue : Nat → List Char → Option (JValue × List Char)
  | 0, _ => none
  | Nat.succ fuel, input =>
    match input with
    | [] => none
    | c :: rest =>
      if c.isDigit ∨ c = '-' then
        match pInt (c :: rest) with
        | some (n, r) => some (.int n, r)
        | none => none
      else if c = '"' then
        match pStrChars rest with
        | some (cs, r) => some (.str ⟨cs⟩, r)
        | none => none
      else if c = 'n' then
        match expectLit ['u', 'l', 'l'] rest with
        | some r => some (.null, r)
        | none => none
      else if c = 't' then
        match expectLit ['r', 'u', 'e'] rest with
        | some r => some (.bool true, r)
        | none => none
      else if c = 'f' then
        match expectLit ['a', 'l', 's', 'e'] rest with
        | some r => some (.bool false, r)
        | none => none
      else if c = '[' then
        match skipWs rest with
        | [] => none
        | c2 :: r2 =>
          if c2 = ']' then some (.arr [], r2)
          else
            match pValue fuel (c2 :: r2) with
            | some (v, r3) =>
              match pArrTail fuel (skipWs r3) with
              | some (vs, r4) => some (.arr (v :: vs), r4)
              | none => none
            | none => none
      else if c = '\x7b' then
        match skipWs rest with
        | [] => none
        | c2 :: r2 =>
          if c2 = '\x7d' then some (.obj [], r2)
          else
            match pMember fuel (c2 :: r2) with
            | some (kv, r3) =>
              match pObjTail fuel (skipWs r3) with
              | some (kvs, r4) => some (.obj (kv :: kvs), r4)
              | none => none
            | none => none
      else none

/-- One key: value member (the key is a string literal). -/
def pMember : Nat → List Char → Option ((String × JValue) × List Char)
  | 0, _ => none
  | Nat.succ fuel, input =>
    match input with
    | [] => none
    | c :: rest =>
      if c = '"' then
        match pStrChars rest with
        | some (kcs, r1) =>
          match skipWs r1 with
          | [] => none
          | c2 :: r2 =>
            if c2 = ':' then
              match pValue fuel (skipWs r2) with
              | some (v, r3) => some ((⟨kcs⟩, v), r3)
              | none => none
            else none
        | none => none
      else none

/-- Further array elements up to the closing bracket. -/
def pArrTail : Nat → List Char → Option (List JValue × List Char)
  | 0, _ => none
  | Nat.succ fuel, input =>
    match input with
    | [] => none
    | c :: r =>
      if c = ']' then some ([], r)
      else if c = ',' then
        match pValue fuel (skipWs r) with
        | some (v, r2) =>
          match pArrTail fuel (skipWs r2) with
          | some (vs, r3) => some (v :: vs, r3)
          | none => none
        | none => none
      else none

/-- Further object members up to the closing brace. -/
def pObjTail : Nat → List Char → Option (List (String × JValue) × List Char)
  | 0, _ => none
  | Nat.succ fuel, input =>
    match input with
    | [] => none
    | c :: r =>
      if c = '\x7d' then some ([], r)
      else if c = ',' then
        match pMember fuel (skipWs r) with
        | some (kv, r2) =>
          match pObjTail fuel (skipWs r2) with
          | some (kvs, r3) => some (kv :: kvs, r3)
          | none => none
        | none => none
      else none

end

/-- json.loads of a text: read one value, allowing surrounding whitespace,
and require the input to be exhausted. The reader's fuel only bounds its
nesting recursion; twice the input length plus two is enough for any
parse, since every recursion step consumes input. -/
def jsonDecode (s : String) : Option JValue :=
  match pValue (2 * s.data.length + 2) (skipWs s.data) with
  | some (v, rest) => if skipWs rest = [] then some v else none
  | none => none

/-- A character list that does not start with a decimal digit (a maximal
digit run ends before it). -/
def headNotDigit : List Char → Bool
  | [] => true
  | c :: _ => !c.isDigit

/-- A character list that is empty or starts with a JSON delimiter, the
shape of every continuation following an encoded value. -/
def delimHead : List Char → Bool
  | [] => true
  | c :: _ => c = ',' || c = ']' || c = '\x7d'

/-- The characters an encoded value can start with. -/
def valueStartChar (c : Char) : Bool :=
  c.isDigit || c = '-' || c = '"' || c = 'n' || c = 't' || c = 'f' ||
    c = '[' || c = '\x7b'

/-! ## Wire codec and message queue (bridgegui/messaging.py)

Frames are modelled as strings (zmq delivers byte frames; the dispatcher
decodes every frame as UTF-8 text before use, so valid text frames are the
domain of interest). -/

/-- The argument frames built by messaging.sendCommand: for each keyword
argument a key frame followed by the JSON text of its value. -/
def encodeArgs : List (String × JValue) → List String
  | [] => []
  | (k, v) :: rest => k :: jsonEncode v :: encodeArgs rest

/-- messaging.sendCommand: the multipart message put on the control socket
is an empty frame, the tag (the command itself unless _tag overrides it),
the command, and the serialized keyword arguments. -/
def sendCommand (command : String) (tag : Option String)
    (kwargs : List (String × JValue)) : List String :=
  "" :: (match tag with | some t => t | none => command) :: command ::
    encodeArgs kwargs

/-- messaging._failed_status_code: a status frame fails unless its first two
bytes are "OK". -/
def failed_status_code (code : String) : Bool :=
  code.take 2 ≠ "OK"

/-- messaging.validateControlReply: a control reply needs at least three
frames, an empty first frame and a successful status code in the third;
it yields the command frame (tag) and the argument frames, and the failure
sentinel (None, None) otherwise, modelled as none. -/
def validateControlReply : List String → Option (String × List String)
  | e :: tag :: status :: rest =>
    if e ≠ "" ∨ failed_status_code status then none else some (tag, rest)
  | _ => none

/-- messaging.validateEventMessage: returns parts[0] and parts[1:].
On an empty frame list the subscript parts[0] raises IndexError in the
source; that failure is modelled as none. -/
def validateEventMessage : List String → Option (String × List String)
  | [] => none
  | t :: rest => some (t, rest)

/-- Outcome of MessageQueue._handle_message on one received message:
either the looked-up handler is invoked with the decoded keyword mapping,
or a ProtocolError is raised (invalid frames, unrecognized command, odd
argument count, or a JSON decode failure). -/
inductive MsgResult where
  | invoked (command : String) (kwargs : List (String × JValue))
  | protoError

/-- The JSON text decoder used on each value frame (json.loads); defined
below with the codec. -/
def decode (s : String) : Option JValue :=
  jsonDecode s

/-- The argument-decoding loop of MessageQueue._handle_message: frames are
taken as key/value pairs and each value frame is JSON-decoded; a decode
failure raises ProtocolError (none here). The caller has already checked
the frame count to be even. -/
def decodeArgs : List String → Option (List (String × JValue))
  | [] => some []
  | k :: v :: rest =>
    match decode v with
    | some j =>
      match decodeArgs rest with
      | some l => some ((k, j) :: l)
      | none => none
    | none => none
  | _ :: [] => none

/-- MessageQueue._handle_message: validate the frames, look up the handler
for the command (the handler map is modelled by its set of registered
command tags; handler bodies run in the session layer), require an even
number of argument frames, decode the arguments, and invoke the handler. -/
def handle_message (handlers : List String)
    (validator : List String → Option (String × List String))
    (parts : List String) : MsgResult :=
  match validator parts with
  | none => .protoError
  | some (command, args) =>
    if handlers.contains command then
      if args.length % 2 != 0 then .protoError
      else
        match decodeArgs args with
        | some kwargs => .invoked command kwargs
        | none => .protoError
    else .protoError

/-- One result of socket.recv_multipart inside the drain loop: a received
multi-frame message, a zmq.ContextTerminated raise, or another zmq.ZMQError
raise. -/
inductive RecvItem where
  | msg (parts : List String)
  | ctxTerminated
  | recvError

/-- The drain loop of MessageQueue.handleMessages, carrying the running ret
flag: receive errors of kind ContextTerminated return True at once (the
process is about to exit); other receive errors clear ret and draining
continues; a ProtocolError from _handle_message clears ret and draining
continues; handler invocations are collected in order. -/
def handleMessagesFrom (handlers : List String)
    (validator : List String → Option (String × List String)) :
    List RecvItem → Bool → Bool × List (String × List (String × JValue))
  | [], ret => (ret, [])
  | .ctxTerminated :: _, _ => (true, [])
  | .recvError :: rest, _ => handleMessagesFrom handlers validator rest false
  | .msg parts :: rest, ret =>
    match handle_message handlers validator parts with
    | .invoked command kwargs =>
      let r := handleMessagesFrom handlers validator rest ret
      (r.1, (command, kwargs) :: r.2)
    | .protoError => handleMessagesFrom handlers validator rest false

/-- MessageQueue.handleMessages: drain the buffered receive results, return
whether no error was recorded, together with the handler invocations made
during the call. -/
def handleMessages (handlers : List String)
    (validator : List String → Option (String × List String))
    (buffered : List RecvItem) : Bool × List (String × List (String × JValue)) :=
  handleMessagesFrom handlers validator buffered true

/-- Whether a receive result is the ContextTerminated raise. -/
def isTermItem : RecvItem → Bool
  | .ctxTerminated => true
  | _ => false

/-- Whether handling one receive result records an error during a drain: a
non-termination receive error does, and so does a message on which
_handle_message raises ProtocolError. -/
def drainError (handlers : List String)
    (validator : List String → Option (String × List String)) :
    RecvItem → Bool
  | .msg parts =>
    match handle_message handlers validator parts with
    | .protoError => true
    | .invoked _ _ => false
  | .recvError => true
  | .ctxTerminated => false

/-- The handler invocations produced by a list of receive results, in
receipt order. -/
def invocationsOf (handlers : List String)
    (validator : List String → Option (String × List String)) :
    List RecvItem → List (String × List (String × JValue))
  | [] => []
  | .msg parts :: rest =>
    match handle_message handlers validator parts with
    | .invoked command kwargs =>
      (command, kwargs) :: invocationsOf handlers validator rest
    | .protoError => invocationsOf handlers validator rest
  | _ :: rest => invocationsOf handlers validator rest

/-! ## Session state and event handling (bridgegui/__main__.py)

The session fields owned by BridgeWindow itself are the event counter, the
own position and the game uuid. Every other effect of a reply or event
handler is a call into the presentation widgets or onto a socket; those
calls are recorded as an ordered action list. -/

/-- A presentation or socket call made by a BridgeWindow handler. alertUser
records the QMessageBox.warning raised by the notifier callback; subscribe
records the event-socket subscription made by _init_game; sendCmd records a
sendCommand on the control socket (tag, command, arguments). -/
inductive UiAction where
  | setPlayerPosition (v : JValue)
  | setPositionInTurn (v : JValue)
  | setAllowedCalls (v : JValue)
  | setCalls (v : JValue)
  | setBiddingResult (declarer contract : JValue)
  | setCards (m : List (String × JValue))
  | setAllowedCards (v : JValue)
  | setTrick (v : JValue)
  | setTricksWon (v : JValue)
  | setVulnerability (v : JValue)
  | addTrick (winner : JValue)
  | alertUser
  | subscribe (topic : String)
  | sendCmd (tag command : String) (args : List (String × JValue))

/-- The session-owned mutable fields of BridgeWindow. -/
structure SessionState where
  counter : Option Nat
  position : JValue
  gameUuid : Option String

/-- Python truthiness of a counter value: None and 0 are falsy. -/
def truthyNat : Option Nat → Bool
  | none => false
  | some n => n != 0

/-- BridgeWindow._is_stale_event: `if not counter: return False`, then
`elif self._counter and self._counter > counter: return True`, else False.
The comparison is only reached with both counters non-None. -/
def is_stale_event (selfCounter counter : Option Nat) : Bool :=
  if !(truthyNat counter) then false
  else if truthyNat selfCounter && counter.getD 0 < selfCounter.getD 0 then true
  else false

/-- The staleness rule in the words of the spec, for comparison with
is_stale_event: an event is stale iff a previously-applied counter exists
and is strictly greater than the incoming counter. -/
def specStale (stored incoming : Option Nat) : Prop :=
  ∃ cs, stored = some cs ∧ ∃ ci, incoming = some ci ∧ ci < cs

/-- BridgeWindow._handle_trick_event: gated by the staleness check, then
self._tricks_won_label.addTrick(winner). Modelled from the spec for the
missing bridgegui.tricks module: addTrick records the trick winner and
increments the tricks-won tally, recorded here as the addTrick action. -/
def handle_trick_event (st : SessionState) (winner : JValue)
    (counter : Option Nat) : SessionState × List UiAction :=
  if is_stale_event st.counter counter then (st, [])
  else (st, [.addTrick winner])

/-- A Python exception escaping a handler. -/
inductive PyError where
  | attributeError
  | protocolError

/-- BridgeWindow._handle_dealend_event: gated by the staleness check; the
body then executes self._score_table.addScore(score). ScoreTable
(bridgegui/score.py) defines no method addScore — its recording method is
addResult — so the attribute lookup raises AttributeError on every
non-stale dealend event, before the subsequent setCalls([]) and
setTricksWon(tricksWon) lines can run. -/
def handle_dealend_event (st : SessionState) (tricksWon score : JValue)
    (counter : Option Nat) : Except PyError (SessionState × List UiAction) :=
  if is_stale_event st.counter counter then .ok (st, [])
  else .error .attributeError

/-- BridgeWindow._handle_join_reply: on a truthy game identifier,
_init_game subscribes the event socket to the game topic and registers the
event handlers, and a get command tagged initget requests the full initial
state; on a falsy game identifier the handler only runs
logging.error("Unable to join game") — logging is diagnostics and outside
the model — so no state change, no presentation call and no further
command follow. -/
def handle_join_reply (st : SessionState) (game : Option String) :
    SessionState × List UiAction :=
  match game with
  | some g =>
    if g != "" then
      ({ st with gameUuid := some g },
        [.subscribe g, .sendCmd "initget" "get" [("game", .str g)]])
    else (st, [])
  | none => (st, [])

/-- The callback _connect_socket_to_notifier installs: when a drain call
reports failure, QMessageBox.warning shows a server-error alert (and the
timer handler is detached). -/
def notifier_tick (drainOk : Bool) : List UiAction :=
  if drainOk then [] else [.alertUser]

/-! Classifiers for the presentation calls, used to count the refresh calls
a handler makes for one widget property. -/

def isSetPlayerPosition : UiAction → Bool
  | .setPlayerPosition _ => true
  | .setPositionInTurn _ => false
  | .setAllowedCalls _ => false
  | .setCalls _ => false
  | .setBiddingResult _ _ => false
  | .setCards _ => false
  | .setAllowedCards _ => false
  | .setTrick _ => false
  | .setTricksWon _ => false
  | .setVulnerability _ => false
  | .addTrick _ => false
  | .alertUser => false
  | .subscribe _ => false
  | .sendCmd _ _ _ => false

def isSetPositionInTurn : UiAction → Bool
  | .setPlayerPosition _ => false
  | .setPositionInTurn _ => true
  | .setAllowedCalls _ => false
  | .setCalls _ => false
  | .setBiddingResult _ _ => false
  | .setCards _ => false
  | .setAllowedCards _ => false
  | .setTrick _ => false
  | .setTricksWon _ => false
  | .setVulnerability _ => false
  | .addTrick _ => false
  | .alertUser => false
  | .subscribe _ => false
  | .sendCmd _ _ _ => false

def isSetAllowedCalls : UiAction → Bool
  | .setPlayerPosition _ => false
  | .setPositionInTurn _ => false
  | .setAllowedCalls _ => true
  | .setCalls _ => false
  | .setBiddingResult _ _ => false
  | .setCards _ => false
  | .setAllowedCards _ => false
  | .setTrick _ => false
  | .setTricksWon _ => false
  | .setVulnerability _ => false
  | .addTrick _ => false
  | .alertUser => false
  | .subscribe _ => false
  | .sendCmd _ _ _ => false

def isSetCalls : UiAction → Bool
  | .setPlayerPosition _ => false
  | .setPositionInTurn _ => false
  | .setAllowedCalls _ => false
  | .setCalls _ => true
  | .setBiddingResult _ _ => false
  | .setCards _ => false
  | .setAllowedCards _ => false
  | .setTrick _ => false
  | .setTricksWon _ => false
  | .setVulnerability _ => false
  | .addTrick _ => false
  | .alertUser => false
  | .subscribe _ => false
  | .sendCmd _ _ _ => false

def isSetBiddingResult : UiAction → Bool
  | .setPlayerPosition _ => false
  | .setPositionInTurn _ => false
  | .setAllowedCalls _ => false
  | .setCalls _ => false
  | .setBiddingResult _ _ => true
  | .setCards _ => false
  | .setAllowedCards _ => false
  | .setTrick _ => false
  | .setTricksWon _ => false
  | .setVulnerability _ => false
  | .addTrick _ => false
  | .alertUser => false
  | .subscribe _ => false
  | .sendCmd _ _ _ => false

def isSetCards : UiAction → Bool
  | .setPlayerPosition _ => false
  | .setPositionInTurn _ => false
  | .setAllowedCalls _ => false
  | .setCalls _ => false
  | .setBiddingResult _ _ => false
  | .setCards _ => true
  | .setAllowedCards _ => false
  | .setTrick _ => false
  | .setTricksWon _ => false
  | .setVulnerability _ => false
  | .addTrick _ => false
  | .alertUser => false
  | .subscribe _ => false
  | .sendCmd _ _ _ => false

def isSetAllowedCards : UiAction → Bool
  | .setPlayerPosition _ => false
  | .setPositionInTurn _ => false
  | .setAllowedCalls _ => false
  | .setCalls _ => false
  | .setBiddingResult _ _ => false
  | .setCards _ => false
  | .setAllowedCards _ => true
  | .setTrick _ => false
  | .setTricksWon _ => false
  | .setVulnerability _ => false
  | .addTrick _ => false
  | .alertUser => false
  | .subscribe _ => false
  | .sendCmd _ _ _ => false

def isSetTrick : UiAction → Bool
  | .setPlayerPosition _ => false
  | .setPositionInTurn _ => false
  | .setAllowedCalls _ => false
  | .setCalls _ => false
  | .setBiddingResult _ _ => false
  | .setCards _ => false
  | .setAllowedCards _ => false
  | .setTrick _ => true
  | .setTricksWon _ => false
  | .setVulnerability _ => false
  | .addTrick _ => false
  | .alertUser => false
  | .subscribe _ => false
  | .sendCmd _ _ _ => false

def isSetTricksWon : UiAction → Bool
  | .setPlayerPosition _ => false
  | .setPositionInTurn _ => false
  | .setAllowedCalls _ => false
  | .setCalls _ => false
  | .setBiddingResult _ _ => false
  | .setCards _ => false
  | .setAllowedCards _ => false
  | .setTrick _ => false
  | .setTricksWon _ => true
  | .setVulnerability _ => false
  | .addTrick _ => false
  | .alertUser => false
  | .subscribe _ => false
  | .sendCmd _ _ _ => false

def isSetVulnerability : UiAction → Bool
  | .setPlayerPosition _ => false
  | .setPositionInTurn _ => false
  | .setAllowedCalls _ => false
  | .setCalls _ => false
  | .setBiddingResult _ _ => false
  | .setCards _ => false
  | .setAllowedCards _ => false
  | .setTrick _ => false
  | .setTricksWon _ => false
  | .setVulnerability _ => true
  | .addTrick _ => false
  | .alertUser => false
  | .subscribe _ => false
  | .sendCmd _ _ _ => false

/-! ## The state-merge rule (BridgeWindow._handle_get_reply) -/

def PUBSTATE_TAG : String := "pubstate"
def PRIVSTATE_TAG : String := "privstate"
def SELF_TAG : String := "self"
def POSITION_TAG : String := "position"
def POSITION_IN_TURN_TAG : String := "positionInTurn"
def ALLOWED_CALLS_TAG : String := "allowedCalls"
def CALLS_TAG : String := "calls"
def DECLARER_TAG : String := "declarer"
def CONTRACT_TAG : String := "contract"
def ALLOWED_CARDS_TAG : String := "allowedCards"
def CARDS_TAG : String := "cards"
def TRICK_TAG : String := "trick"
def TRICKS_WON_TAG : String := "tricksWon"
def VULNERABILITY_TAG : String := "vulnerability"
def SCORE_TAG : String := "score"
def PARTNERSHIP_TAG : String := "partnership"

/-- Python dict.get on a decoded mapping (first match wins; decoded JSON
mappings have unique keys). -/
def plookup : List (String × JValue) → String → Option JValue
  | [], _ => none
  | (k, v) :: rest, key => if k == key then some v else plookup rest key

/-- get.get(tag, \x7b\x7d): an absent section behaves as an empty mapping;
a present section must be a mapping, otherwise the later attribute access
.get raises in the source (modelled as none). -/
def sectionOf (get : List (String × JValue)) (tag : String) :
    Option (List (String × JValue)) :=
  match plookup get tag with
  | none => some []
  | some (.obj m) => some m
  | some _ => none

/-- Python dict.update: keys of p keep their order and take the value from
q when q has one; keys only in q are appended in their order. -/
def dictUpdate (p q : List (String × JValue)) : List (String × JValue) :=
  (p.map fun kv =>
    match plookup q kv.1 with
    | some v => (kv.1, v)
    | none => kv) ++ q.filter (fun kv => (plookup p kv.1).isNone)

/-- section.get("cards", \x7b\x7d) as a mapping: absent means empty; a
present non-mapping value makes dict.update raise in the source (none). -/
def cardsObjOf (sec : List (String × JValue)) :
    Option (List (String × JValue)) :=
  match plookup sec CARDS_TAG with
  | none => some []
  | some (.obj m) => some m
  | some _ => none

/-- The merged cards mapping of _handle_get_reply: the public cards updated
with the private cards. -/
def mergedCards (pub priv : List (String × JValue)) :
    Option (List (String × JValue)) :=
  match cardsObjOf pub with
  | some p =>
    match cardsObjOf priv with
    | some q => some (dictUpdate p q)
    | none => none
  | none => none

/-- The position branch of _handle_get_reply: the position field is set and
setPlayerPosition called only when the payload carries a position differing
from the current one. -/
def posSeg (st : SessionState) (slf : List (String × JValue)) :
    SessionState × List UiAction :=
  match plookup slf POSITION_TAG with
  | some p =>
    if JValue.beq p st.position then (st, [])
    else ({ st with position := p }, [.setPlayerPosition p])
  | none => (st, [])

/-- A guarded single setter call: made exactly when the key is present. -/
def optSeg (f : JValue → UiAction) (v : Option JValue) : List UiAction :=
  match v with
  | some x => [f x]
  | none => []

/-- The bidding-result branch: setBiddingResult is called only when both
the declarer and the contract keys are present. -/
def biddingSeg (pub : List (String × JValue)) : List UiAction :=
  match plookup pub DECLARER_TAG, plookup pub CONTRACT_TAG with
  | some d, some c => [.setBiddingResult d c]
  | _, _ => []

/-- The cards branch: `if cards:` — setCards runs only on a nonempty merged
mapping. -/
def cardsSeg (m : List (String × JValue)) : List UiAction :=
  if m.isEmpty then [] else [.setCards m]

/-- The counter update of _handle_get_reply: a truthy counter is recorded;
a falsy one (absent or zero) is only logged as a warning. -/
def counterUpd (st : SessionState) (counter : Option Nat) : SessionState :=
  match counter with
  | some c => if c != 0 then { st with counter := some c } else st
  | none => st

/-- BridgeWindow._handle_get_reply: record the counter, read the three
state sections, and apply the key-by-key merge in source order. none
models a raise on an ill-typed payload (a non-mapping section or cards
value); every claim below is about payloads the source processes without
raising. -/
def handle_get_reply (st : SessionState) (get : List (String × JValue))
    (counter : Option Nat) : Option (SessionState × List UiAction) := do
  let st1 := counterUpd st counter
  let pub ← sectionOf get PUBSTATE_TAG
  let priv ← sectionOf get PRIVSTATE_TAG
  let slf ← sectionOf get SELF_TAG
  let ps := posSeg st1 slf
  let merged ← mergedCards pub priv
  pure (ps.1,
    ps.2
    ++ optSeg UiAction.setPositionInTurn (plookup slf POSITION_IN_TURN_TAG)
    ++ optSeg UiAction.setAllowedCalls (plookup slf ALLOWED_CALLS_TAG)
    ++ optSeg UiAction.setCalls (plookup pub CALLS_TAG)
    ++ biddingSeg pub
    ++ cardsSeg merged
    ++ optSeg UiAction.setAllowedCards (plookup slf ALLOWED_CARDS_TAG)
    ++ optSeg UiAction.setTrick (plookup pub TRICK_TAG)
    ++ optSeg UiAction.setTricksWon (plookup pub TRICKS_WON_TAG)
    ++ optSeg UiAction.setVulnerability (plookup pub VULNERABILITY_TAG))

/-! ## Score sheet (bridgegui/score.py) -/

inductive Partnership where
  | northSouth
  | eastWest

/-- Modelled from the spec: bridgegui.positions.asPartnership (the
positions module is not under src/). Partnership tags are the opaque enum
tags used by the protocol and the score tests; an unrecognized value
raises, which _generate_score_tuple turns into a ProtocolError. -/
def asPartnership (v : JValue) : Option Partnership :=
  if JValue.beq v (.str "northSouth") then some .northSouth
  else if JValue.beq v (.str "eastWest") then some .eastWest
  else none

/-- Python str() on a decoded score amount. Scores are numbers in practice;
container values are rendered via the JSON encoder (Python would quote
strings inside them differently, which nothing below relies on). -/
def pyStr : JValue → String
  | .int n => toString n
  | .str s => s
  | .bool true => "True"
  | .bool false => "False"
  | .null => "None"
  | v => jsonEncode v

/-- ScoreTable._generate_score_tuple: a null partnership means a passed-out
deal; otherwise the score amount is credited to the winning partnership
column; any failure (missing key, unknown partnership, non-mapping result)
raises ProtocolError. -/
def generate_score_tuple (result : JValue) : Except PyError (String × String) :=
  match result with
  | .obj m =>
    match plookup m PARTNERSHIP_TAG with
    | some .null => .ok ("0", "0")
    | some p =>
      match plookup m SCORE_TAG with
      | some s =>
        match asPartnership p with
        | some .northSouth => .ok (pyStr s, "0")
        | some .eastWest => .ok ("0", pyStr s)
        | none => .error .protocolError
      | none => .error .protocolError
    | none => .error .protocolError
  | _ => .error .protocolError

/-- ScoreTable.addResult: append the generated score tuple as a new row of
the score sheet. -/
def addResult (rows : List (String × String)) (result : JValue) :
    Except PyError (List (String × String)) :=
  match generate_score_tuple result with
  | .ok t => .ok (rows ++ [t])
  | .error e => .error e

/-! # Theorems -/

/-! ## C1: staleness predicate -/

/-- C1 counterexample: the claim states an event is stale iff a stored
counter exists and is strictly greater than the incoming counter, for every
incoming value including zero. With stored counter 5 and incoming counter 0
the spec predicate holds (5 > 0), yet _is_stale_event returns False: the
`if not counter` truthiness guard treats a zero incoming counter as absent
and never stale. -/
theorem C1_counterexample :
    specStale (some 5) (some 0) ∧ is_stale_event (some 5) (some 0) = false :=
  ⟨⟨5, rfl, 0, rfl, by omega⟩, rfl⟩

/-- C1 amended: an event is treated as stale iff the incoming counter is
present and nonzero AND a previously-applied counter is present and
strictly greater than it (the truthiness guard exempts absent and zero
incoming counters; a stored counter can only be a nonzero value, and any
stored counter strictly above a positive incoming one is nonzero). -/
theorem C1_stale_iff (selfCounter counter : Option Nat) :
    is_stale_event selfCounter counter = true ↔
      ∃ cs ci, selfCounter = some cs ∧ counter = some ci ∧ 0 < ci ∧ ci < cs := by
  cases counter with
  | none => simp [is_stale_event, truthyNat]
  | some ci =>
    cases selfCounter with
    | none => simp [is_stale_event, truthyNat]
    | some cs =>
      by_cases hci : ci = 0
      · subst hci
        simp [is_stale_event, truthyNat]
      · by_cases hlt : ci < cs
        · have hcs : cs ≠ 0 := by omega
          simp only [is_stale_event, truthyNat, Option.getD_some]
          rw [if_neg (by simp [hci]), if_pos (by simp [hcs, hlt])]
          simp only [true_iff, Option.some.injEq]
          exact ⟨cs, ci, rfl, rfl, by omega, hlt⟩
        · simp only [is_stale_event, truthyNat, Option.getD_some]
          rw [if_neg (by simp [hci]), if_neg (by simp [hlt])]
          constructor
          · intro h
            exact absurd h (by simp)
          · rintro ⟨cs2, ci2, hcs2, hci2, h0, h1⟩
            cases hcs2
            cases hci2
            exact absurd h1 hlt

/-! ## C2: staleness monotonicity across applied counters -/

/-- C2 counterexample: after get replies applying counters 4 then 5 in
order, a trick-completed event bearing counter 5 (equal to the stored
counter, hence within c3 <= c2) is NOT discarded: the staleness check uses
a strict comparison, so the handler runs addTrick again and the tricks-won
tally increments. -/
theorem C2_counterexample :
    handle_get_reply ⟨none, .null, none⟩ [] (some 4)
      = some (⟨some 4, .null, none⟩, []) ∧
    handle_get_reply ⟨some 4, .null, none⟩ [] (some 5)
      = some (⟨some 5, .null, none⟩, []) ∧
    (4 : Nat) < 5 ∧ (5 : Nat) ≤ 5 ∧
    handle_trick_event ⟨some 5, .null, none⟩ (.str "north") (some 5)
      = (⟨some 5, .null, none⟩, [.addTrick (.str "north")]) :=
  ⟨rfl, rfl, by omega, by omega, rfl⟩

/-- C2 amended: with stored last-applied counter c2, an event whose counter
c3 satisfies 0 < c3 < c2 (strictly less; the truthiness guard additionally
exempts c3 = 0, cf. C1) is discarded with no state change and no
presentation call; this is shown for the trick-completed and deal-ended
handlers. An event with c3 = c2 is re-applied, as the counterexample
shows. -/
theorem C2_stale_strict (st : SessionState) (c2 c3 : Nat) (winner tw sc : JValue)
    (hc : st.counter = some c2) (h0 : 0 < c3) (hlt : c3 < c2) :
    handle_trick_event st winner (some c3) = (st, []) ∧
    handle_dealend_event st tw sc (some c3) = .ok (st, []) := by
  have hs : is_stale_event st.counter (some c3) = true := by
    rw [hc]
    simp [is_stale_event, truthyNat]
    omega
  constructor
  · simp [handle_trick_event, hs]
  · simp [handle_dealend_event, hs]

/-- C2 witness: stored counter 5, incoming counter 4. -/
theorem C2_stale_strict_witness :
    handle_trick_event ⟨some 5, .null, none⟩ .null (some 4)
      = (⟨some 5, .null, none⟩, []) ∧
    handle_dealend_event ⟨some 5, .null, none⟩ .null .null (some 4)
      = .ok (⟨some 5, .null, none⟩, []) :=
  C2_stale_strict ⟨some 5, .null, none⟩ 5 4 .null .null .null rfl
    (by omega) (by omega)

/-! ## C4: deal-ended handler -/

/-- C4: on every non-stale deal-ended event the handler raises
AttributeError instead of recording the score: the first statement of
_handle_dealend_event is self._score_table.addScore(score), but ScoreTable
(score.py) defines its recording method under the name addResult — the
score tests exercise addResult — so no score row is added, the call log is
not cleared and the tally is not set. -/
theorem C4_dealend_attribute_error (st : SessionState) (tricksWon score : JValue)
    (counter : Option Nat) (h : is_stale_event st.counter counter = false) :
    handle_dealend_event st tricksWon score counter = .error .attributeError := by
  simp [handle_dealend_event, h]

/-- C4 witness: a fresh deal-ended event (stored counter 5, incoming 6)
with a well-formed passed-out score payload raises. -/
theorem C4_dealend_attribute_error_witness :
    handle_dealend_event ⟨some 5, .null, none⟩ .null
      (.obj [("partnership", .null)]) (some 6) = .error .attributeError :=
  C4_dealend_attribute_error ⟨some 5, .null, none⟩ .null
    (.obj [("partnership", .null)]) (some 6) rfl

/-! ## C7: odd argument count -/

/-- C7: whenever the validator accepts a message whose trailing key/value
segments are odd in count, _handle_message raises ProtocolError (whether or
not the tag has a registered handler, the lookup and parity guards run
before any handler is invoked), so no handler is invoked. -/
theorem C7_odd_args_rejected (handlers : List String)
    (validator : List String → Option (String × List String))
    (parts : List String) (command : String) (args : List String)
    (hv : validator parts = some (command, args))
    (hodd : args.length % 2 = 1) :
    handle_message handlers validator parts = .protoError := by
  unfold handle_message
  rw [hv]
  by_cases hc : handlers.contains command = true
  · simp [hc, hodd]
  · have hmem : ¬command ∈ handlers := by simpa using hc
    simp [hmem]

/-- C7 witness: a validated control reply with a lone "game" key frame and
no value frame is rejected. -/
theorem C7_odd_args_rejected_witness :
    handle_message ["join"] validateControlReply ["", "join", "OK", "game"]
      = .protoError :=
  C7_odd_args_rejected ["join"] validateControlReply
    ["", "join", "OK", "game"] "join" ["game"] (by rfl) (by rfl)

/-! ## C8: join failure surfacing -/

/-- C8 counterexample: a join reply carrying no game identifier produces no
state change and an empty action list — in particular no alertUser call
(the QMessageBox layer) and no further command: the code only runs
logging.error("Unable to join game"), a log line. -/
theorem C8_counterexample :
    handle_join_reply ⟨none, .null, none⟩ none = (⟨none, .null, none⟩, []) ∧
    UiAction.alertUser ∉ (handle_join_reply ⟨none, .null, none⟩ none).2 :=
  ⟨rfl, fun h => nomatch h⟩

/-- C8 amended: a join reply without a game identifier (absent or empty) is
only logged: the session state is unchanged, no presentation call — and in
particular no user-visible alert — is made, and no command is sent, so
there is no automatic retry. -/
theorem C8_join_failure_only_logged (st : SessionState) :
    handle_join_reply st none = (st, []) ∧
    handle_join_reply st (some "") = (st, []) :=
  ⟨rfl, rfl⟩

/-! ## C10: event message validator -/

/-- C10 counterexample: on the empty frame list validateEventMessage does
not succeed — the source subscript parts[0] raises IndexError — while the
claim states it succeeds on every well-formed list including the empty
one. -/
theorem C10_counterexample : validateEventMessage [] = none := rfl

/-- C10 amended: on every non-empty frame list validateEventMessage
succeeds, returning the first segment as the topic/tag and the remaining
segments as the key/value pairs; the empty list (which zmq cannot deliver:
a multipart message has at least one frame) fails. -/
theorem C10_nonempty_valid (t : String) (rest : List String) :
    validateEventMessage (t :: rest) = some (t, rest) := rfl

/-! ## C3: drain result and robustness -/

/-- The drain loop characterized for any starting ret flag: the call ends
true iff a ContextTerminated receive occurs (it returns success at once) or
the flag stays set and no item records an error; the invocations are those
of the items before the first ContextTerminated. -/
theorem handleMessagesFrom_spec (handlers : List String)
    (validator : List String → Option (String × List String))
    (buffered : List RecvItem) : ∀ ret : Bool,
    handleMessagesFrom handlers validator buffered ret
      = (buffered.any isTermItem
           || (ret && buffered.all (fun i => !drainError handlers validator i)),
         invocationsOf handlers validator
           (buffered.takeWhile (fun i => !isTermItem i))) := by
  induction buffered with
  | nil =>
    intro ret
    simp [handleMessagesFrom, invocationsOf]
  | cons item rest ih =>
    intro ret
    cases item with
    | ctxTerminated =>
      simp [handleMessagesFrom, isTermItem, invocationsOf]
    | recvError =>
      simp [handleMessagesFrom, isTermItem, drainError, ih, invocationsOf]
    | msg parts =>
      cases h : handle_message handlers validator parts with
      | invoked c k =>
        simp [handleMessagesFrom, isTermItem, drainError, h, ih, invocationsOf]
      | protoError =>
        simp [handleMessagesFrom, isTermItem, drainError, h, ih, invocationsOf]

/-- C3 counterexample to the claim's iff: a buffer holding one malformed
message (registered event tag, odd argument segments — a protocol error)
followed by a ContextTerminated receive. handleMessages returns true even
though an error occurred during the call, because channel closure returns
success immediately, discarding the recorded failure; and no later
buffered message would be handled after the closure. -/
theorem C3_counterexample :
    handleMessages ["tag"] validateEventMessage
      [.msg ["tag", "k"], .ctxTerminated] = (true, []) ∧
    handle_message ["tag"] validateEventMessage ["tag", "k"]
      = .protoError :=
  ⟨rfl, rfl⟩

/-- C3 amended: a drain call returns true iff a ContextTerminated receive
occurs (channel closure during shutdown ends the call successfully at
once, discarding any earlier failure and leaving any remaining buffered
items unhandled) or no error occurred among the drained messages; before
the first closure, a malformed message k marks the call failed while
messages k+1..N are still validated and their handlers invoked in order,
and other receive errors mark the call failed while draining continues. -/
theorem C3_drain_spec (handlers : List String)
    (validator : List String → Option (String × List String))
    (buffered : List RecvItem) :
    handleMessages handlers validator buffered
      = (buffered.any isTermItem
           || buffered.all (fun i => !drainError handlers validator i),
         invocationsOf handlers validator
           (buffered.takeWhile (fun i => !isTermItem i))) := by
  have h := handleMessagesFrom_spec handlers validator buffered true
  simpa [handleMessages] using h

/-! ## C5, C6: the state-merge rule -/

/-- The counter update leaves the position field alone. -/
theorem counterUpd_position (st : SessionState) (c : Option Nat) :
    (counterUpd st c).position = st.position := by
  cases c with
  | none => rfl
  | some n =>
    by_cases h : n ≠ 0 <;> simp [counterUpd, h]

/-- The counter update leaves the game uuid alone. -/
theorem counterUpd_gameUuid (st : SessionState) (c : Option Nat) :
    (counterUpd st c).gameUuid = st.gameUuid := by
  cases c with
  | none => rfl
  | some n =>
    by_cases h : n ≠ 0 <;> simp [counterUpd, h]

/-- An absent counter leaves the counter alone. -/
theorem counterUpd_none (st : SessionState) : counterUpd st none = st := rfl

/-- The actions of the position branch. -/
theorem posSeg_snd (st : SessionState) (slf : List (String × JValue)) :
    (posSeg st slf).2
      = (match plookup slf POSITION_TAG with
         | some p =>
           if JValue.beq p st.position then []
           else [UiAction.setPlayerPosition p]
         | none => []) := by
  unfold posSeg
  cases plookup slf POSITION_TAG with
  | none => rfl
  | some p =>
    by_cases h : JValue.beq p st.position = true <;> simp [h]

/-- The position branch only ever touches the position field. -/
theorem posSeg_fst_counter (st : SessionState) (slf : List (String × JValue)) :
    (posSeg st slf).1.counter = st.counter := by
  unfold posSeg
  cases plookup slf POSITION_TAG with
  | none => rfl
  | some p =>
    by_cases h : JValue.beq p st.position = true <;> simp [h]

/-- The position branch only ever touches the position field. -/
theorem posSeg_fst_gameUuid (st : SessionState) (slf : List (String × JValue)) :
    (posSeg st slf).1.gameUuid = st.gameUuid := by
  unfold posSeg
  cases plookup slf POSITION_TAG with
  | none => rfl
  | some p =>
    by_cases h : JValue.beq p st.position = true <;> simp [h]

/-- With no position key the position branch is the identity. -/
theorem posSeg_none (st : SessionState) (slf : List (String × JValue))
    (h : plookup slf POSITION_TAG = none) : posSeg st slf = (st, []) := by
  simp [posSeg, h]

/-- A guarded setter contributes nothing to a filter for another
constructor. -/
theorem filter_optSeg_ne (p : UiAction → Bool) (f : JValue → UiAction)
    (v : Option JValue) (h : ∀ x, p (f x) = false) :
    (optSeg f v).filter p = [] := by
  cases v <;> simp [optSeg, h]

/-- A guarded setter's filter for its own constructor is itself. -/
theorem filter_optSeg_eq (p : UiAction → Bool) (f : JValue → UiAction)
    (v : Option JValue) (h : ∀ x, p (f x) = true) :
    (optSeg f v).filter p = optSeg f v := by
  cases v <;> simp [optSeg, h]

/-- The position branch contributes nothing to a filter for another
constructor. -/
theorem filter_posSeg_ne (p : UiAction → Bool) (st : SessionState)
    (slf : List (String × JValue))
    (h : ∀ x, p (UiAction.setPlayerPosition x) = false) :
    ((posSeg st slf).2).filter p = [] := by
  rw [posSeg_snd]
  cases plookup slf POSITION_TAG with
  | none => rfl
  | some q =>
    by_cases hq : JValue.beq q st.position = true <;> simp [hq, h]

/-- The position branch's filter for setPlayerPosition is itself. -/
theorem filter_posSeg_eq (st : SessionState) (slf : List (String × JValue)) :
    ((posSeg st slf).2).filter isSetPlayerPosition = (posSeg st slf).2 := by
  rw [posSeg_snd]
  cases plookup slf POSITION_TAG with
  | none => rfl
  | some q =>
    by_cases hq : JValue.beq q st.position = true <;> simp [hq, isSetPlayerPosition]

/-- The bidding branch contributes nothing to a filter for another
constructor. -/
theorem filter_biddingSeg_ne (p : UiAction → Bool)
    (pub : List (String × JValue))
    (h : ∀ d c, p (UiAction.setBiddingResult d c) = false) :
    (biddingSeg pub).filter p = [] := by
  unfold biddingSeg
  cases plookup pub DECLARER_TAG <;> cases plookup pub CONTRACT_TAG <;> simp [h]

/-- The bidding branch's filter for setBiddingResult is itself. -/
theorem filter_biddingSeg_eq (pub : List (String × JValue)) :
    (biddingSeg pub).filter isSetBiddingResult = biddingSeg pub := by
  unfold biddingSeg
  cases plookup pub DECLARER_TAG <;> cases plookup pub CONTRACT_TAG <;>
    simp [isSetBiddingResult]

/-- The cards branch contributes nothing to a filter for another
constructor. -/
theorem filter_cardsSeg_ne (p : UiAction → Bool)
    (m : List (String × JValue)) (h : ∀ x, p (UiAction.setCards x) = false) :
    (cardsSeg m).filter p = [] := by
  unfold cardsSeg
  by_cases hm : m.isEmpty <;> simp [hm, h]

/-- The cards branch's filter for setCards is itself. -/
theorem filter_cardsSeg_eq (m : List (String × JValue)) :
    (cardsSeg m).filter isSetCards = cardsSeg m := by
  unfold cardsSeg
  by_cases hm : m.isEmpty <;> simp [hm, isSetCards]

/-- The successful unfolding of _handle_get_reply in terms of its
branches. -/
theorem get_reply_eq (st : SessionState) (get : List (String × JValue))
    (counter : Option Nat) (pub priv slf merged : List (String × JValue))
    (hpub : sectionOf get PUBSTATE_TAG = some pub)
    (hpriv : sectionOf get PRIVSTATE_TAG = some priv)
    (hslf : sectionOf get SELF_TAG = some slf)
    (hm : mergedCards pub priv = some merged) :
    handle_get_reply st get counter
      = some ((posSeg (counterUpd st counter) slf).1,
          (posSeg (counterUpd st counter) slf).2
          ++ optSeg UiAction.setPositionInTurn (plookup slf POSITION_IN_TURN_TAG)
          ++ optSeg UiAction.setAllowedCalls (plookup slf ALLOWED_CALLS_TAG)
          ++ optSeg UiAction.setCalls (plookup pub CALLS_TAG)
          ++ biddingSeg pub
          ++ cardsSeg merged
          ++ optSeg UiAction.setAllowedCards (plookup slf ALLOWED_CARDS_TAG)
          ++ optSeg UiAction.setTrick (plookup pub TRICK_TAG)
          ++ optSeg UiAction.setTricksWon (plookup pub TRICKS_WON_TAG)
          ++ optSeg UiAction.setVulnerability (plookup pub VULNERABILITY_TAG)) := by
  simp [handle_get_reply, hpub, hpriv, hslf, hm]

/-- C5 counterexample: a get payload whose public section carries an empty
cards mapping and a declarer without a contract triggers NO refresh call at
all: `if cards:` skips setCards on an empty merged mapping, and
setBiddingResult requires declarer and contract to both be present — yet
the claim says every present key overwrites, even with an empty value, and
triggers exactly one refresh. -/
theorem C5_counterexample :
    handle_get_reply ⟨none, .null, none⟩
      [("pubstate", .obj [("cards", .obj []), ("declarer", .str "north")])]
      none
      = some (⟨none, .null, none⟩, []) ∧
    plookup [("cards", JValue.obj []), ("declarer", JValue.str "north")]
      CARDS_TAG = some (.obj []) ∧
    plookup [("cards", JValue.obj []), ("declarer", JValue.str "north")]
      DECLARER_TAG = some (.str "north") :=
  ⟨rfl, rfl, rfl⟩

/-- C5 amended: on a successfully merged payload, each widget property is
refreshed exactly once when its key is applied and not otherwise, where
"applied" is: position present and different from the current one;
positionInTurn / allowedCalls / allowedCards (self section) and calls /
trick / tricksWon / vulnerability (public section) present; declarer and
contract BOTH present (a declarer without a contract triggers nothing);
the merged public+private cards mapping nonempty (a present-but-empty
cards mapping triggers nothing). The refresh carries exactly the payload
value, which overwrites the widget's state. -/
theorem C5_refresh_per_key (st : SessionState) (get : List (String × JValue))
    (counter : Option Nat) (st2 : SessionState) (log : List UiAction)
    (pub priv slf merged : List (String × JValue))
    (hpub : sectionOf get PUBSTATE_TAG = some pub)
    (hpriv : sectionOf get PRIVSTATE_TAG = some priv)
    (hslf : sectionOf get SELF_TAG = some slf)
    (hm : mergedCards pub priv = some merged)
    (h : handle_get_reply st get counter = some (st2, log)) :
    (log.filter isSetPlayerPosition
       = match plookup slf POSITION_TAG with
         | some p =>
           if JValue.beq p st.position then []
           else [UiAction.setPlayerPosition p]
         | none => []) ∧
    (log.filter isSetPositionInTurn
       = match plookup slf POSITION_IN_TURN_TAG with
         | some v => [UiAction.setPositionInTurn v]
         | none => []) ∧
    (log.filter isSetAllowedCalls
       = match plookup slf ALLOWED_CALLS_TAG with
         | some v => [UiAction.setAllowedCalls v]
         | none => []) ∧
    (log.filter isSetCalls
       = match plookup pub CALLS_TAG with
         | some v => [UiAction.setCalls v]
         | none => []) ∧
    (log.filter isSetBiddingResult
       = match plookup pub DECLARER_TAG, plookup pub CONTRACT_TAG with
         | some d, some c => [UiAction.setBiddingResult d c]
         | _, _ => []) ∧
    (log.filter isSetCards
       = if merged.isEmpty then [] else [UiAction.setCards merged]) ∧
    (log.filter isSetAllowedCards
       = match plookup slf ALLOWED_CARDS_TAG with
         | some v => [UiAction.setAllowedCards v]
         | none => []) ∧
    (log.filter isSetTrick
       = match plookup pub TRICK_TAG with
         | some v => [UiAction.setTrick v]
         | none => []) ∧
    (log.filter isSetTricksWon
       = match plookup pub TRICKS_WON_TAG with
         | some v => [UiAction.setTricksWon v]
         | none => []) ∧
    (log.filter isSetVulnerability
       = match plookup pub VULNERABILITY_TAG with
         | some v => [UiAction.setVulnerability v]
         | none => []) := by
  rw [get_reply_eq st get counter pub priv slf merged hpub hpriv hslf hm,
    Option.some.injEq, Prod.mk.injEq] at h
  obtain ⟨hst, hlog⟩ := h
  subst hst
  subst hlog
  refine ⟨?_, ?_, ?_, ?_, ?_, ?_, ?_, ?_, ?_, ?_⟩
  · simp only [List.filter_append]
    rw [filter_posSeg_eq,
        filter_optSeg_ne isSetPlayerPosition UiAction.setPositionInTurn _ (fun x => rfl),
        filter_optSeg_ne isSetPlayerPosition UiAction.setAllowedCalls _ (fun x => rfl),
        filter_optSeg_ne isSetPlayerPosition UiAction.setCalls _ (fun x => rfl),
        filter_biddingSeg_ne isSetPlayerPosition _ (fun d c => rfl),
        filter_cardsSeg_ne isSetPlayerPosition _ (fun x => rfl),
        filter_optSeg_ne isSetPlayerPosition UiAction.setAllowedCards _ (fun x => rfl),
        filter_optSeg_ne isSetPlayerPosition UiAction.setTrick _ (fun x => rfl),
        filter_optSeg_ne isSetPlayerPosition UiAction.setTricksWon _ (fun x => rfl),
        filter_optSeg_ne isSetPlayerPosition UiAction.setVulnerability _ (fun x => rfl)]
    simp only [List.append_nil, List.nil_append]
    rw [posSeg_snd, counterUpd_position]

  · simp only [List.filter_append]
    rw [filter_posSeg_ne isSetPositionInTurn _ _ (fun x => rfl),
        filter_optSeg_eq isSetPositionInTurn UiAction.setPositionInTurn _ (fun x => rfl),
        filter_optSeg_ne isSetPositionInTurn UiAction.setAllowedCalls _ (fun x => rfl),
        filter_optSeg_ne isSetPositionInTurn UiAction.setCalls _ (fun x => rfl),
        filter_biddingSeg_ne isSetPositionInTurn _ (fun d c => rfl),
        filter_cardsSeg_ne isSetPositionInTurn _ (fun x => rfl),
        filter_optSeg_ne isSetPositionInTurn UiAction.setAllowedCards _ (fun x => rfl),
        filter_optSeg_ne isSetPositionInTurn UiAction.setTrick _ (fun x => rfl),
        filter_optSeg_ne isSetPositionInTurn UiAction.setTricksWon _ (fun x => rfl),
        filter_optSeg_ne isSetPositionInTurn UiAction.setVulnerability _ (fun x => rfl)]
    simp only [List.append_nil, List.nil_append]
    rfl

  · simp only [List.filter_append]
    rw [filter_posSeg_ne isSetAllowedCalls _ _ (fun x => rfl),
        filter_optSeg_ne isSetAllowedCalls UiAction.setPositionInTurn _ (fun x => rfl),
        filter_optSeg_eq isSetAllowedCalls UiAction.setAllowedCalls _ (fun x => rfl),
        filter_optSeg_ne isSetAllowedCalls UiAction.setCalls _ (fun x => rfl),
        filter_biddingSeg_ne isSetAllowedCalls _ (fun d c => rfl),
        filter_cardsSeg_ne isSetAllowedCalls _ (fun x => rfl),
        filter_optSeg_ne isSetAllowedCalls UiAction.setAllowedCards _ (fun x => rfl),
        filter_optSeg_ne isSetAllowedCalls UiAction.setTrick _ (fun x => rfl),
        filter_optSeg_ne isSetAllowedCalls UiAction.setTricksWon _ (fun x => rfl),
        filter_optSeg_ne isSetAllowedCalls UiAction.setVulnerability _ (fun x => rfl)]
    simp only [List.append_nil, List.nil_append]
    rfl

  · simp only [List.filter_append]
    rw [filter_posSeg_ne isSetCalls _ _ (fun x => rfl),
        filter_optSeg_ne isSetCalls UiAction.setPositionInTurn _ (fun x => rfl),
        filter_optSeg_ne isSetCalls UiAction.setAllowedCalls _ (fun x => rfl),
        filter_optSeg_eq isSetCalls UiAction.setCalls _ (fun x => rfl),
        filter_biddingSeg_ne isSetCalls _ (fun d c => rfl),
        filter_cardsSeg_ne isSetCalls _ (fun x => rfl),
        filter_optSeg_ne isSetCalls UiAction.setAllowedCards _ (fun x => rfl),
        filter_optSeg_ne isSetCalls UiAction.setTrick _ (fun x => rfl),
        filter_optSeg_ne isSetCalls UiAction.setTricksWon _ (fun x => rfl),
        filter_optSeg_ne isSetCalls UiAction.setVulnerability _ (fun x => rfl)]
    simp only [List.append_nil, List.nil_append]
    rfl

  · simp only [List.filter_append]
    rw [filter_posSeg_ne isSetBiddingResult _ _ (fun x => rfl),
        filter_optSeg_ne isSetBiddingResult UiAction.setPositionInTurn _ (fun x => rfl),
        filter_optSeg_ne isSetBiddingResult UiAction.setAllowedCalls _ (fun x => rfl),
        filter_optSeg_ne isSetBiddingResult UiAction.setCalls _ (fun x => rfl),
        filter_biddingSeg_eq,
        filter_cardsSeg_ne isSetBiddingResult _ (fun x => rfl),
        filter_optSeg_ne isSetBiddingResult UiAction.setAllowedCards _ (fun x => rfl),
        filter_optSeg_ne isSetBiddingResult UiAction.setTrick _ (fun x => rfl),
        filter_optSeg_ne isSetBiddingResult UiAction.setTricksWon _ (fun x => rfl),
        filter_optSeg_ne isSetBiddingResult UiAction.setVulnerability _ (fun x => rfl)]
    simp only [List.append_nil, List.nil_append]
    rfl

  · simp only [List.filter_append]
    rw [filter_posSeg_ne isSetCards _ _ (fun x => rfl),
        filter_optSeg_ne isSetCards UiAction.setPositionInTurn _ (fun x => rfl),
        filter_optSeg_ne isSetCards UiAction.setAllowedCalls _ (fun x => rfl),
        filter_optSeg_ne isSetCards UiAction.setCalls _ (fun x => rfl),
        filter_biddingSeg_ne isSetCards _ (fun d c => rfl),
        filter_cardsSeg_eq,
        filter_optSeg_ne isSetCards UiAction.setAllowedCards _ (fun x => rfl),
        filter_optSeg_ne isSetCards UiAction.setTrick _ (fun x => rfl),
        filter_optSeg_ne isSetCards UiAction.setTricksWon _ (fun x => rfl),
        filter_optSeg_ne isSetCards UiAction.setVulnerability _ (fun x => rfl)]
    simp only [List.append_nil, List.nil_append]
    rfl

  · simp only [List.filter_append]
    rw [filter_posSeg_ne isSetAllowedCards _ _ (fun x => rfl),
        filter_optSeg_ne isSetAllowedCards UiAction.setPositionInTurn _ (fun x => rfl),
        filter_optSeg_ne isSetAllowedCards UiAction.setAllowedCalls _ (fun x => rfl),
        filter_optSeg_ne isSetAllowedCards UiAction.setCalls _ (fun x => rfl),
        filter_biddingSeg_ne isSetAllowedCards _ (fun d c => rfl),
        filter_cardsSeg_ne isSetAllowedCards _ (fun x => rfl),
        filter_optSeg_eq isSetAllowedCards UiAction.setAllowedCards _ (fun x => rfl),
        filter_optSeg_ne isSetAllowedCards UiAction.setTrick _ (fun x => rfl),
        filter_optSeg_ne isSetAllowedCards UiAction.setTricksWon _ (fun x => rfl),
        filter_optSeg_ne isSetAllowedCards UiAction.setVulnerability _ (fun x => rfl)]
    simp only [List.append_nil, List.nil_append]
    rfl

  · simp only [List.filter_append]
    rw [filter_posSeg_ne isSetTrick _ _ (fun x => rfl),
        filter_optSeg_ne isSetTrick UiAction.setPositionInTurn _ (fun x => rfl),
        filter_optSeg_ne isSetTrick UiAction.setAllowedCalls _ (fun x => rfl),
        filter_optSeg_ne isSetTrick UiAction.setCalls _ (fun x => rfl),
        filter_biddingSeg_ne isSetTrick _ (fun d c => rfl),
        filter_cardsSeg_ne isSetTrick _ (fun x => rfl),
        filter_optSeg_ne isSetTrick UiAction.setAllowedCards _ (fun x => rfl),
        filter_optSeg_eq isSetTrick UiAction.setTrick _ (fun x => rfl),
        filter_optSeg_ne isSetTrick UiAction.setTricksWon _ (fun x => rfl),
        filter_optSeg_ne isSetTrick UiAction.setVulnerability _ (fun x => rfl)]
    simp only [List.append_nil, List.nil_append]
    rfl

  · simp only [List.filter_append]
    rw [filter_posSeg_ne isSetTricksWon _ _ (fun x => rfl),
        filter_optSeg_ne isSetTricksWon UiAction.setPositionInTurn _ (fun x => rfl),
        filter_optSeg_ne isSetTricksWon UiAction.setAllowedCalls _ (fun x => rfl),
        filter_optSeg_ne isSetTricksWon UiAction.setCalls _ (fun x => rfl),
        filter_biddingSeg_ne isSetTricksWon _ (fun d c => rfl),
        filter_cardsSeg_ne isSetTricksWon _ (fun x => rfl),
        filter_optSeg_ne isSetTricksWon UiAction.setAllowedCards _ (fun x => rfl),
        filter_optSeg_ne isSetTricksWon UiAction.setTrick _ (fun x => rfl),
        filter_optSeg_eq isSetTricksWon UiAction.setTricksWon _ (fun x => rfl),
        filter_optSeg_ne isSetTricksWon UiAction.setVulnerability _ (fun x => rfl)]
    simp only [List.append_nil, List.nil_append]
    rfl

  · simp only [List.filter_append]
    rw [filter_posSeg_ne isSetVulnerability _ _ (fun x => rfl),
        filter_optSeg_ne isSetVulnerability UiAction.setPositionInTurn _ (fun x => rfl),
        filter_optSeg_ne isSetVulnerability UiAction.setAllowedCalls _ (fun x => rfl),
        filter_optSeg_ne isSetVulnerability UiAction.setCalls _ (fun x => rfl),
        filter_biddingSeg_ne isSetVulnerability _ (fun d c => rfl),
        filter_cardsSeg_ne isSetVulnerability _ (fun x => rfl),
        filter_optSeg_ne isSetVulnerability UiAction.setAllowedCards _ (fun x => rfl),
        filter_optSeg_ne isSetVulnerability UiAction.setTrick _ (fun x => rfl),
        filter_optSeg_ne isSetVulnerability UiAction.setTricksWon _ (fun x => rfl),
        filter_optSeg_eq isSetVulnerability UiAction.setVulnerability _ (fun x => rfl)]
    simp only [List.append_nil, List.nil_append]
    rfl

/-- C6: the frame conditions of the state merge: every local field whose
key is absent from the payload is untouched — no refresh call for it is
made and the session-owned fields keep their values. The single card store
is fed by the cards key of either section, so it is untouched when both
are absent. A payload whose self section is absent (in particular one
containing only the public section) leaves the own position and every
self-view property untouched. -/
theorem C6_partial_merge_frame (st : SessionState) (get : List (String × JValue))
    (counter : Option Nat) (st2 : SessionState) (log : List UiAction)
    (pub priv slf merged : List (String × JValue))
    (hpub : sectionOf get PUBSTATE_TAG = some pub)
    (hpriv : sectionOf get PRIVSTATE_TAG = some priv)
    (hslf : sectionOf get SELF_TAG = some slf)
    (hm : mergedCards pub priv = some merged)
    (h : handle_get_reply st get counter = some (st2, log)) :
    (plookup slf POSITION_TAG = none →
       st2.position = st.position ∧ log.filter isSetPlayerPosition = []) ∧
    (plookup slf POSITION_IN_TURN_TAG = none →
       log.filter isSetPositionInTurn = []) ∧
    (plookup slf ALLOWED_CALLS_TAG = none →
       log.filter isSetAllowedCalls = []) ∧
    (plookup pub CALLS_TAG = none → log.filter isSetCalls = []) ∧
    (plookup pub DECLARER_TAG = none ∨ plookup pub CONTRACT_TAG = none →
       log.filter isSetBiddingResult = []) ∧
    (plookup pub CARDS_TAG = none → plookup priv CARDS_TAG = none →
       log.filter isSetCards = []) ∧
    (plookup slf ALLOWED_CARDS_TAG = none →
       log.filter isSetAllowedCards = []) ∧
    (plookup pub TRICK_TAG = none → log.filter isSetTrick = []) ∧
    (plookup pub TRICKS_WON_TAG = none → log.filter isSetTricksWon = []) ∧
    (plookup pub VULNERABILITY_TAG = none →
       log.filter isSetVulnerability = []) ∧
    (counter = none → st2.counter = st.counter) ∧
    (st2.gameUuid = st.gameUuid) ∧
    (plookup get SELF_TAG = none →
       st2.position = st.position ∧
       log.filter isSetPlayerPosition = [] ∧
       log.filter isSetPositionInTurn = [] ∧
       log.filter isSetAllowedCalls = [] ∧
       log.filter isSetAllowedCards = []) := by
  rw [get_reply_eq st get counter pub priv slf merged hpub hpriv hslf hm,
    Option.some.injEq, Prod.mk.injEq] at h
  obtain ⟨hst, hlog⟩ := h
  set logE := (posSeg (counterUpd st counter) slf).2
      ++ optSeg UiAction.setPositionInTurn (plookup slf POSITION_IN_TURN_TAG)
      ++ optSeg UiAction.setAllowedCalls (plookup slf ALLOWED_CALLS_TAG)
      ++ optSeg UiAction.setCalls (plookup pub CALLS_TAG)
      ++ biddingSeg pub
      ++ cardsSeg merged
      ++ optSeg UiAction.setAllowedCards (plookup slf ALLOWED_CARDS_TAG)
      ++ optSeg UiAction.setTrick (plookup pub TRICK_TAG)
      ++ optSeg UiAction.setTricksWon (plookup pub TRICKS_WON_TAG)
      ++ optSeg UiAction.setVulnerability (plookup pub VULNERABILITY_TAG)
    with hlogE
  subst hlog
  subst hst
  have hposition : ∀ (hp : plookup slf POSITION_TAG = none),
      (posSeg (counterUpd st counter) slf).1.position = st.position ∧
      logE.filter isSetPlayerPosition = [] := by
    intro hp
    constructor
    · rw [posSeg_none _ _ hp, counterUpd_position]
    · show logE.filter isSetPlayerPosition = []
      unfold_let logE
      simp only [List.filter_append]
      rw [filter_optSeg_ne isSetPlayerPosition UiAction.setPositionInTurn _ (fun x => rfl),
          filter_optSeg_ne isSetPlayerPosition UiAction.setAllowedCalls _ (fun x => rfl),
          filter_optSeg_ne isSetPlayerPosition UiAction.setCalls _ (fun x => rfl),
          filter_biddingSeg_ne isSetPlayerPosition _ (fun d c => rfl),
          filter_cardsSeg_ne isSetPlayerPosition _ (fun x => rfl),
          filter_optSeg_ne isSetPlayerPosition UiAction.setAllowedCards _ (fun x => rfl),
          filter_optSeg_ne isSetPlayerPosition UiAction.setTrick _ (fun x => rfl),
          filter_optSeg_ne isSetPlayerPosition UiAction.setTricksWon _ (fun x => rfl),
          filter_optSeg_ne isSetPlayerPosition UiAction.setVulnerability _ (fun x => rfl)]
      rw [posSeg_none _ _ hp]
      simp
  have hsetPositionInTurn : ∀ (hk : plookup slf POSITION_IN_TURN_TAG = none),
      logE.filter isSetPositionInTurn = [] := by
    intro hk
    unfold_let logE
    simp only [List.filter_append]
    rw [filter_posSeg_ne isSetPositionInTurn _ _ (fun x => rfl),
        filter_optSeg_ne isSetPositionInTurn UiAction.setAllowedCalls _ (fun x => rfl),
        filter_optSeg_ne isSetPositionInTurn UiAction.setCalls _ (fun x => rfl),
        filter_biddingSeg_ne isSetPositionInTurn _ (fun d c => rfl),
        filter_cardsSeg_ne isSetPositionInTurn _ (fun x => rfl),
        filter_optSeg_ne isSetPositionInTurn UiAction.setAllowedCards _ (fun x => rfl),
        filter_optSeg_ne isSetPositionInTurn UiAction.setTrick _ (fun x => rfl),
        filter_optSeg_ne isSetPositionInTurn UiAction.setTricksWon _ (fun x => rfl),
        filter_optSeg_ne isSetPositionInTurn UiAction.setVulnerability _ (fun x => rfl)]
    rw [hk]
    simp [optSeg]
  have hsetAllowedCalls : ∀ (hk : plookup slf ALLOWED_CALLS_TAG = none),
      logE.filter isSetAllowedCalls = [] := by
    intro hk
    unfold_let logE
    simp only [List.filter_append]
    rw [filter_posSeg_ne isSetAllowedCalls _ _ (fun x => rfl),
        filter_optSeg_ne isSetAllowedCalls UiAction.setPositionInTurn _ (fun x => rfl),
        filter_optSeg_ne isSetAllowedCalls UiAction.setCalls _ (fun x => rfl),
        filter_biddingSeg_ne isSetAllowedCalls _ (fun d c => rfl),
        filter_cardsSeg_ne isSetAllowedCalls _ (fun x => rfl),
        filter_optSeg_ne isSetAllowedCalls UiAction.setAllowedCards _ (fun x => rfl),
        filter_optSeg_ne isSetAllowedCalls UiAction.setTrick _ (fun x => rfl),
        filter_optSeg_ne isSetAllowedCalls UiAction.setTricksWon _ (fun x => rfl),
        filter_optSeg_ne isSetAllowedCalls UiAction.setVulnerability _ (fun x => rfl)]
    rw [hk]
    simp [optSeg]
  have hsetCalls : ∀ (hk : plookup pub CALLS_TAG = none),
      logE.filter isSetCalls = [] := by
    intro hk
    unfold_let logE
    simp only [List.filter_append]
    rw [filter_posSeg_ne isSetCalls _ _ (fun x => rfl),
        filter_optSeg_ne isSetCalls UiAction.setPositionInTurn _ (fun x => rfl),
        filter_optSeg_ne isSetCalls UiAction.setAllowedCalls _ (fun x => rfl),
        filter_biddingSeg_ne isSetCalls _ (fun d c => rfl),
        filter_cardsSeg_ne isSetCalls _ (fun x => rfl),
        filter_optSeg_ne isSetCalls UiAction.setAllowedCards _ (fun x => rfl),
        filter_optSeg_ne isSetCalls UiAction.setTrick _ (fun x => rfl),
        filter_optSeg_ne isSetCalls UiAction.setTricksWon _ (fun x => rfl),
        filter_optSeg_ne isSetCalls UiAction.setVulnerability _ (fun x => rfl)]
    rw [hk]
    simp [optSeg]
  have hsetAllowedCards : ∀ (hk : plookup slf ALLOWED_CARDS_TAG = none),
      logE.filter isSetAllowedCards = [] := by
    intro hk
    unfold_let logE
    simp only [List.filter_append]
    rw [filter_posSeg_ne isSetAllowedCards _ _ (fun x => rfl),
        filter_optSeg_ne isSetAllowedCards UiAction.setPositionInTurn _ (fun x => rfl),
        filter_optSeg_ne isSetAllowedCards UiAction.setAllowedCalls _ (fun x => rfl),
        filter_optSeg_ne isSetAllowedCards UiAction.setCalls _ (fun x => rfl),
        filter_biddingSeg_ne isSetAllowedCards _ (fun d c => rfl),
        filter_cardsSeg_ne isSetAllowedCards _ (fun x => rfl),
        filter_optSeg_ne isSetAllowedCards UiAction.setTrick _ (fun x => rfl),
        filter_optSeg_ne isSetAllowedCards UiAction.setTricksWon _ (fun x => rfl),
        filter_optSeg_ne isSetAllowedCards UiAction.setVulnerability _ (fun x => rfl)]
    rw [hk]
    simp [optSeg]
  have hsetTrick : ∀ (hk : plookup pub TRICK_TAG = none),
      logE.filter isSetTrick = [] := by
    intro hk
    unfold_let logE
    simp only [List.filter_append]
    rw [filter_posSeg_ne isSetTrick _ _ (fun x => rfl),
        filter_optSeg_ne isSetTrick UiAction.setPositionInTurn _ (fun x => rfl),
        filter_optSeg_ne isSetTrick UiAction.setAllowedCalls _ (fun x => rfl),
        filter_optSeg_ne isSetTrick UiAction.setCalls _ (fun x => rfl),
        filter_biddingSeg_ne isSetTrick _ (fun d c => rfl),
        filter_cardsSeg_ne isSetTrick _ (fun x => rfl),
        filter_optSeg_ne isSetTrick UiAction.setAllowedCards _ (fun x => rfl),
        filter_optSeg_ne isSetTrick UiAction.setTricksWon _ (fun x => rfl),
        filter_optSeg_ne isSetTrick UiAction.setVulnerability _ (fun x => rfl)]
    rw [hk]
    simp [optSeg]
  have hsetTricksWon : ∀ (hk : plookup pub TRICKS_WON_TAG = none),
      logE.filter isSetTricksWon = [] := by
    intro hk
    unfold_let logE
    simp only [List.filter_append]
    rw [filter_posSeg_ne isSetTricksWon _ _ (fun x => rfl),
        filter_optSeg_ne isSetTricksWon UiAction.setPositionInTurn _ (fun x => rfl),
        filter_optSeg_ne isSetTricksWon UiAction.setAllowedCalls _ (fun x => rfl),
        filter_optSeg_ne isSetTricksWon UiAction.setCalls _ (fun x => rfl),
        filter_biddingSeg_ne isSetTricksWon _ (fun d c => rfl),
        filter_cardsSeg_ne isSetTricksWon _ (fun x => rfl),
        filter_optSeg_ne isSetTricksWon UiAction.setAllowedCards _ (fun x => rfl),
        filter_optSeg_ne isSetTricksWon UiAction.setTrick _ (fun x => rfl),
        filter_optSeg_ne isSetTricksWon UiAction.setVulnerability _ (fun x => rfl)]
    rw [hk]
    simp [optSeg]
  have hsetVulnerability : ∀ (hk : plookup pub VULNERABILITY_TAG = none),
      logE.filter isSetVulnerability = [] := by
    intro hk
    unfold_let logE
    simp only [List.filter_append]
    rw [filter_posSeg_ne isSetVulnerability _ _ (fun x => rfl),
        filter_optSeg_ne isSetVulnerability UiAction.setPositionInTurn _ (fun x => rfl),
        filter_optSeg_ne isSetVulnerability UiAction.setAllowedCalls _ (fun x => rfl),
        filter_optSeg_ne isSetVulnerability UiAction.setCalls _ (fun x => rfl),
        filter_biddingSeg_ne isSetVulnerability _ (fun d c => rfl),
        filter_cardsSeg_ne isSetVulnerability _ (fun x => rfl),
        filter_optSeg_ne isSetVulnerability UiAction.setAllowedCards _ (fun x => rfl),
        filter_optSeg_ne isSetVulnerability UiAction.setTrick _ (fun x => rfl),
        filter_optSeg_ne isSetVulnerability UiAction.setTricksWon _ (fun x => rfl)]
    rw [hk]
    simp [optSeg]
  have hbidding : ∀ (hk : plookup pub DECLARER_TAG = none ∨
      plookup pub CONTRACT_TAG = none),
      logE.filter isSetBiddingResult = [] := by
    intro hk
    unfold_let logE
    simp only [List.filter_append]
    rw [filter_posSeg_ne isSetBiddingResult _ _ (fun x => rfl),
        filter_optSeg_ne isSetBiddingResult UiAction.setPositionInTurn _ (fun x => rfl),
        filter_optSeg_ne isSetBiddingResult UiAction.setAllowedCalls _ (fun x => rfl),
        filter_optSeg_ne isSetBiddingResult UiAction.setCalls _ (fun x => rfl),
        filter_cardsSeg_ne isSetBiddingResult _ (fun x => rfl),
        filter_optSeg_ne isSetBiddingResult UiAction.setAllowedCards _ (fun x => rfl),
        filter_optSeg_ne isSetBiddingResult UiAction.setTrick _ (fun x => rfl),
        filter_optSeg_ne isSetBiddingResult UiAction.setTricksWon _ (fun x => rfl),
        filter_optSeg_ne isSetBiddingResult UiAction.setVulnerability _ (fun x => rfl)]
    rw [filter_biddingSeg_eq]
    rcases hk with hd | hc
    · cases hx : plookup pub CONTRACT_TAG <;> simp [biddingSeg, hd, hx]
    · cases hx : plookup pub DECLARER_TAG <;> simp [biddingSeg, hx, hc]
  have hcards : ∀ (hcp : plookup pub CARDS_TAG = none)
      (hcq : plookup priv CARDS_TAG = none),
      logE.filter isSetCards = [] := by
    intro hcp hcq
    have h1 : cardsObjOf pub = some [] := by simp [cardsObjOf, hcp]
    have h2 : cardsObjOf priv = some [] := by simp [cardsObjOf, hcq]
    have hme : merged = [] := by
      unfold mergedCards at hm
      rw [h1, h2] at hm
      simpa [dictUpdate] using hm.symm
    unfold_let logE
    simp only [List.filter_append]
    rw [filter_posSeg_ne isSetCards _ _ (fun x => rfl),
        filter_optSeg_ne isSetCards UiAction.setPositionInTurn _ (fun x => rfl),
        filter_optSeg_ne isSetCards UiAction.setAllowedCalls _ (fun x => rfl),
        filter_optSeg_ne isSetCards UiAction.setCalls _ (fun x => rfl),
        filter_biddingSeg_ne isSetCards _ (fun d c => rfl),
        filter_optSeg_ne isSetCards UiAction.setAllowedCards _ (fun x => rfl),
        filter_optSeg_ne isSetCards UiAction.setTrick _ (fun x => rfl),
        filter_optSeg_ne isSetCards UiAction.setTricksWon _ (fun x => rfl),
        filter_optSeg_ne isSetCards UiAction.setVulnerability _ (fun x => rfl)]
    rw [filter_cardsSeg_eq]
    simp [cardsSeg, hme]
  have hslfnil : ∀ (hs : plookup get SELF_TAG = none), slf = [] := by
    intro hs
    unfold sectionOf at hslf
    rw [hs] at hslf
    exact (Option.some.injEq _ _ ▸ hslf.symm)
  refine ⟨hposition, hsetPositionInTurn, hsetAllowedCalls, hsetCalls,
    hbidding, hcards, hsetAllowedCards, hsetTrick, hsetTricksWon,
    hsetVulnerability, ?_, ?_, ?_⟩
  · intro hc
    subst hc
    rw [posSeg_fst_counter]
    rfl
  · rw [posSeg_fst_gameUuid, counterUpd_gameUuid]
  · intro hs
    have hnil := hslfnil hs
    subst hnil
    exact ⟨(hposition rfl).1, (hposition rfl).2, hsetPositionInTurn rfl,
      hsetAllowedCalls rfl, hsetAllowedCards rfl⟩

/-- C5 witness: a payload with a present calls key (value: the empty call
list) gets exactly one setCalls refresh, at a concrete input. -/
theorem C5_refresh_per_key_witness :
    List.filter isSetCalls
      [UiAction.setPositionInTurn (JValue.str "north"),
       UiAction.setCalls (JValue.arr [])]
      = [UiAction.setCalls (JValue.arr [])] :=
  (C5_refresh_per_key ⟨none, JValue.null, none⟩
    [("pubstate", JValue.obj [("calls", JValue.arr [])]),
     ("self", JValue.obj [("positionInTurn", JValue.str "north")])]
    (some 3) ⟨some 3, JValue.null, none⟩
    [UiAction.setPositionInTurn (JValue.str "north"),
     UiAction.setCalls (JValue.arr [])]
    [("calls", JValue.arr [])] [] [("positionInTurn", JValue.str "north")] []
    rfl rfl rfl rfl rfl).2.2.2.1

/-- C6 witness: a payload without a calls key makes no setCalls refresh, at
a concrete input. -/
theorem C6_partial_merge_frame_witness :
    List.filter isSetCalls [UiAction.setTrick JValue.null] = [] :=
  (C6_partial_merge_frame ⟨some 1, JValue.null, none⟩
    [("pubstate", JValue.obj [("trick", JValue.null)])]
    none ⟨some 1, JValue.null, none⟩ [UiAction.setTrick JValue.null]
    [("trick", JValue.null)] [] [] []
    rfl rfl rfl rfl rfl).2.2.2.1 rfl

/-! ## C9: round-trip of the JSON codec -/

theorem digitChar_isDigit : ∀ d, d < 10 → (digitChar d).isDigit = true := by
  decide

theorem digitChar_val : ∀ d, d < 10 → (digitChar d).toNat - 48 = d := by
  decide

theorem hexVal_hexDigitChar : ∀ d, d < 16 → hexVal (hexDigitChar d) = some d := by
  decide

theorem char_ofNat_toNat_of_lt32 (c : Char) (h : c.toNat < 32) :
    Char.ofNat c.toNat = c := by
  apply Char.ext
  apply UInt32.ext
  show (Char.ofNat c.toNat).toNat = c.toNat
  exact (by decide : ∀ n, n < 32 → (Char.ofNat n).toNat = n) _ h

theorem digitChar_ne (d : Nat) (hd : d < 10) (c : Char)
    (hc : c.isDigit = false) : digitChar d ≠ c := by
  intro e
  have h1 := digitChar_isDigit d hd
  rw [e, hc] at h1
  exact Bool.false_ne_true h1

theorem pDigits_stop (acc : Nat) (l : List Char)
    (h : headNotDigit l = true) : pDigits acc l = (acc, l) := by
  cases l with
  | nil => rfl
  | cons c cs =>
    simp only [headNotDigit, Bool.not_eq_eq_eq_not, Bool.not_true] at h
    simp [pDigits, h]

theorem pDigits_run (ds : List Nat) (hds : ∀ d ∈ ds, d < 10) (acc : Nat)
    (rest : List Char) (hrest : headNotDigit rest = true) :
    pDigits acc (ds.map digitChar ++ rest)
      = (ds.foldl (fun a d => 10 * a + d) acc, rest) := by
  induction ds generalizing acc with
  | nil => simpa using pDigits_stop acc rest hrest
  | cons d ds ih =>
    have hd : d < 10 := hds d (by simp)
    have ih2 := ih (fun x hx => hds x (by simp [hx]))
    simp [pDigits, digitChar_isDigit d hd, digitChar_val d hd, ih2]

theorem foldl10_eq_ofDigits (l : List Nat) (acc : Nat) :
    l.foldl (fun a d => 10 * a + d) acc
      = acc * 10 ^ l.length + Nat.ofDigits 10 l.reverse := by
  induction l generalizing acc with
  | nil => simp
  | cons d t ih =>
    simp only [List.foldl_cons, List.length_cons, List.reverse_cons, ih,
      Nat.ofDigits_append, Nat.ofDigits_singleton, List.length_reverse]
    ring

theorem encNat_shape (n : Nat) :
    ∃ d ds, encNat n = (d :: ds).map digitChar ∧
      (∀ x ∈ d :: ds, x < 10) ∧
      (d :: ds).foldl (fun a x => 10 * a + x) 0 = n := by
  by_cases h : n = 0
  · subst h
    exact ⟨0, [], rfl, by simp, rfl⟩
  · have hne : Nat.digits 10 n ≠ [] := Nat.digits_ne_nil_iff_ne_zero.mpr h
    have hrne : (Nat.digits 10 n).reverse ≠ [] := by
      simpa using hne
    obtain ⟨d, ds, hds⟩ := List.exists_cons_of_ne_nil hrne
    refine ⟨d, ds, ?_, ?_, ?_⟩
    · rw [encNat, if_neg h, hds]
    · intro x hx
      have : x ∈ Nat.digits 10 n := by
        rw [← List.mem_reverse, hds]
        exact hx
      exact Nat.digits_lt_base (by omega) this
    · rw [← hds, foldl10_eq_ofDigits, List.reverse_reverse, zero_mul,
        zero_add, Nat.ofDigits_digits]

theorem pInt_enc (n : Int) (rest : List Char)
    (hrest : headNotDigit rest = true) :
    pInt (encInt n ++ rest) = some (n, rest) := by
  cases n with
  | ofNat m =>
    obtain ⟨d, ds, henc, hbound, hval⟩ := encNat_shape m
    have hd : d < 10 := hbound d (by simp)
    have hrun := pDigits_run ds (fun x hx => hbound x (by simp [hx])) d rest hrest
    have hfold : ds.foldl (fun a x => 10 * a + x) d = m := by
      rw [← hval, List.foldl_cons]
      norm_num
    rw [show encInt (Int.ofNat m) = encNat m from rfl, henc]
    simp only [List.map_cons, List.cons_append]
    simp [pInt, digitChar_ne d hd '-' (by decide), digitChar_isDigit d hd,
      digitChar_val d hd, hrun, hfold]
  | negSucc m =>
    obtain ⟨d, ds, henc, hbound, hval⟩ := encNat_shape (m + 1)
    have hd : d < 10 := hbound d (by simp)
    have hrun := pDigits_run ds (fun x hx => hbound x (by simp [hx])) d rest hrest
    have hfold : ds.foldl (fun a x => 10 * a + x) d = m + 1 := by
      rw [← hval, List.foldl_cons]
      norm_num
    rw [show encInt (Int.negSucc m) = '-' :: encNat (m + 1) from rfl, henc]
    simp only [List.map_cons, List.cons_append]
    simp [pInt, digitChar_isDigit d hd, digitChar_val d hd, hrun, hfold,
      Int.negSucc_eq]

theorem pStrChars_enc (cs rest : List Char) :
    pStrChars (encStrChars cs ++ '"' :: rest) = some (cs, rest) := by
  induction cs with
  | nil =>
    simp only [encStrChars, List.nil_append]
    rw [pStrChars.eq_def]
    simp
  | cons c cs ih =>
    simp only [encStrChars, List.append_assoc]
    by_cases h1 : c = '"'
    · subst h1
      rw [show escChar '"' = ['\\', '"'] from rfl]
      simp only [List.cons_append, List.nil_append]
      rw [pStrChars.eq_def]
      simp [escCode, ih]
    · by_cases h2 : c = '\\'
      · subst h2
        rw [show escChar '\\' = ['\\', '\\'] from rfl]
        simp only [List.cons_append, List.nil_append]
        rw [pStrChars.eq_def]
        simp [escCode, ih]
      · by_cases h3 : c.toNat < 32
        · have hq : c.toNat / 16 < 16 := by omega
          have hr : c.toNat % 16 < 16 := by omega
          have h0 : hexVal '0' = some 0 := by decide
          simp only [escChar, if_neg h1, if_neg h2, if_pos h3, uEscape,
            List.cons_append, List.nil_append]
          rw [pStrChars.eq_def]
          simp [h0, hexVal_hexDigitChar _ hq, hexVal_hexDigitChar _ hr, ih]
          rw [Nat.div_add_mod]
          exact char_ofNat_toNat_of_lt32 c h3
        · simp only [escChar, if_neg h1, if_neg h2, if_neg h3,
            List.cons_append, List.nil_append]
          rw [pStrChars.eq_def]
          simp [h1, h2, ih]

theorem size_pos (v : JValue) : 1 ≤ JValue.size v := by
  cases v <;> simp [JValue.size]

theorem sizeArr_pos (xs : List JValue) : 1 ≤ JValue.sizeArr xs := by
  cases xs <;> simp [JValue.sizeArr] <;> omega

theorem sizeObj_pos (kvs : List (String × JValue)) : 1 ≤ JValue.sizeObj kvs := by
  cases kvs with
  | nil => simp [JValue.sizeObj]
  | cons kv kvs =>
    obtain ⟨k, v⟩ := kv
    simp [JValue.sizeObj]
    omega

theorem encInt_head (n : Int) :
    ∃ c cs, encInt n = c :: cs ∧ (c.isDigit = true ∨ c = '-') := by
  cases n with
  | ofNat m =>
    obtain ⟨d, ds, henc, hb, _⟩ := encNat_shape m
    refine ⟨digitChar d, ds.map digitChar, ?_, Or.inl ?_⟩
    · rw [show encInt (Int.ofNat m) = encNat m from rfl, henc, List.map_cons]
    · exact digitChar_isDigit d (hb d (by simp))
  | negSucc m =>
    exact ⟨'-', encNat (m + 1), rfl, Or.inr rfl⟩

theorem encV_shape (v : JValue) :
    ∃ c cs, encV v = c :: cs ∧ valueStartChar c = true := by
  cases v with
  | null => exact ⟨'n', ['u', 'l', 'l'], by simp [encV, nullChars], by decide⟩
  | bool b =>
    cases b with
    | true =>
      exact ⟨'t', ['r', 'u', 'e'], by simp [encV, boolChars], by decide⟩
    | false =>
      exact ⟨'f', ['a', 'l', 's', 'e'], by simp [encV, boolChars], by decide⟩
  | int n =>
    obtain ⟨c, cs, henc, hc⟩ := encInt_head n
    refine ⟨c, cs, by simp [encV, henc], ?_⟩
    rcases hc with hd | hm
    · simp [valueStartChar, hd]
    · subst hm
      decide
  | str s =>
    exact ⟨'"', encStrChars s.data ++ ['"'], by simp [encV], by decide⟩
  | arr xs =>
    cases xs with
    | nil => exact ⟨'[', [']'], by simp [encV], by decide⟩
    | cons x xs =>
      exact ⟨'[', encV x ++ encArrTail xs ++ [']'], by simp [encV], by decide⟩
  | obj kvs =>
    cases kvs with
    | nil => exact ⟨'\x7b', ['\x7d'], by simp [encV], by decide⟩
    | cons kv kvs =>
      obtain ⟨k, v⟩ := kv
      exact ⟨'\x7b', encMember k v ++ encObjTail kvs ++ ['\x7d'],
        by simp [encV], by decide⟩

theorem valueStart_not_ws (c : Char) (h : valueStartChar c = true) :
    wsChar c = false := by
  by_contra hc
  rw [Bool.not_eq_false] at hc
  have h4 : ((c = ' ' ∨ c = '\t') ∨ c = '\n') ∨ c = '\x0d' := by
    simpa [wsChar] using hc
  rcases h4 with ((rfl | rfl) | rfl) | rfl <;> revert h <;> decide

theorem valueStart_ne (c : Char) (h : valueStartChar c = true) (d : Char)
    (hd : valueStartChar d = false) : c ≠ d := by
  intro e
  subst e
  rw [h] at hd
  exact absurd hd (by simp)

theorem skipWs_valueStart (c : Char) (l : List Char)
    (h : valueStartChar c = true) : skipWs (c :: l) = c :: l := by
  simp [skipWs, valueStart_not_ws c h]

theorem skipWs_encV (v : JValue) (tail : List Char) :
    skipWs (encV v ++ tail) = encV v ++ tail := by
  obtain ⟨c, cs, henc, hvs⟩ := encV_shape v
  rw [henc, List.cons_append, skipWs_valueStart c _ hvs]

theorem delim_not_digit (l : List Char) (h : delimHead l = true) :
    headNotDigit l = true := by
  cases l with
  | nil => rfl
  | cons c cs =>
    simp only [delimHead, Bool.or_eq_true, decide_eq_true_eq] at h
    rcases h with (rfl | rfl) | rfl <;> simp [headNotDigit]

theorem delim_encArrTail (xs : List JValue) (rest : List Char) :
    delimHead (encArrTail xs ++ ']' :: rest) = true := by
  cases xs with
  | nil => simp [encArrTail, delimHead]
  | cons x xs => simp [encArrTail, delimHead]

theorem skipWs_encArrTail (xs : List JValue) (rest : List Char) :
    skipWs (encArrTail xs ++ ']' :: rest) = encArrTail xs ++ ']' :: rest := by
  cases xs with
  | nil => simp [encArrTail, skipWs, wsChar]
  | cons x xs => simp [encArrTail, skipWs, wsChar]

theorem delim_encObjTail (kvs : List (String × JValue)) (rest : List Char) :
    delimHead (encObjTail kvs ++ '\x7d' :: rest) = true := by
  cases kvs with
  | nil => simp [encObjTail, delimHead]
  | cons kv kvs =>
    obtain ⟨k, v⟩ := kv
    simp [encObjTail, delimHead]

theorem skipWs_encObjTail (kvs : List (String × JValue)) (rest : List Char) :
    skipWs (encObjTail kvs ++ '\x7d' :: rest)
      = encObjTail kvs ++ '\x7d' :: rest := by
  cases kvs with
  | nil => simp [encObjTail, skipWs, wsChar]
  | cons kv kvs =>
    obtain ⟨k, v⟩ := kv
    simp [encObjTail, skipWs, wsChar]

theorem encMember_eq (k : String) (v : JValue) :
    encMember k v = '"' :: (encStrChars k.data ++ '"' :: ':' :: ' ' :: encV v) := by
  simp [encMember]

theorem parser_enc_spec (fuel : Nat) :
    (∀ v rest, JValue.size v ≤ fuel → delimHead rest = true →
       pValue fuel (encV v ++ rest) = some (v, rest)) ∧
    (∀ xs rest, JValue.sizeArr xs ≤ fuel →
       pArrTail fuel (encArrTail xs ++ ']' :: rest) = some (xs, rest)) ∧
    (∀ kvs rest, JValue.sizeObj kvs ≤ fuel →
       pObjTail fuel (encObjTail kvs ++ '\x7d' :: rest) = some (kvs, rest)) ∧
    (∀ k v tail, JValue.size v + 1 ≤ fuel → delimHead tail = true →
       pMember fuel (encMember k v ++ tail) = some ((k, v), tail)) := by
  induction fuel with
  | zero =>
    refine ⟨?_, ?_, ?_, ?_⟩
    · intro v rest hsz _
      exact absurd hsz (by have := size_pos v; omega)
    · intro xs rest hsz
      exact absurd hsz (by have := sizeArr_pos xs; omega)
    · intro kvs rest hsz
      exact absurd hsz (by have := sizeObj_pos kvs; omega)
    · intro k v tail hsz _
      exact absurd hsz (by omega)
  | succ f ih =>
    obtain ⟨ihV, ihA, ihO, ihM⟩ := ih
    refine ⟨?_, ?_, ?_, ?_⟩
    · intro v rest hsz hrest
      cases v with
      | null =>
        rw [show encV JValue.null = ['n', 'u', 'l', 'l'] from
          by simp [encV, nullChars], pValue.eq_def]
        simp [expectLit]
      | bool b =>
        cases b with
        | true =>
          rw [show encV (JValue.bool true) = ['t', 'r', 'u', 'e'] from
            by simp [encV, boolChars], pValue.eq_def]
          simp [expectLit]
        | false =>
          rw [show encV (JValue.bool false) = ['f', 'a', 'l', 's', 'e'] from
            by simp [encV, boolChars], pValue.eq_def]
          simp [expectLit]
      | int n =>
        obtain ⟨c, cs, henc, hc⟩ := encInt_head n
        have hpi : pInt (encInt n ++ rest) = some (n, rest) :=
          pInt_enc n rest (delim_not_digit rest hrest)
        rw [henc, List.cons_append] at hpi
        rw [show encV (JValue.int n) = encInt n from by simp [encV], henc,
          List.cons_append, pValue.eq_def]
        rcases hc with hd | hm
        · simp [hd, hpi]
        · subst hm
          simp [hpi]
      | str s =>
        rw [show encV (JValue.str s)
            = '"' :: (encStrChars s.data ++ ['"']) from by simp [encV],
          pValue.eq_def]
        simp only [List.cons_append, List.append_assoc,
          List.singleton_append, List.nil_append]
        simp [pStrChars_enc s.data rest]
      | arr xs =>
        cases xs with
        | nil =>
          rw [show encV (JValue.arr []) = ['[', ']'] from by simp [encV],
            pValue.eq_def]
          simp [skipWs, wsChar]
        | cons x xs =>
          have hszx : JValue.size x ≤ f ∧ JValue.sizeArr xs ≤ f := by
            rw [show JValue.size (JValue.arr (x :: xs))
                = 1 + (1 + JValue.size x + JValue.sizeArr xs) from
              by simp [JValue.size, JValue.sizeArr]] at hsz
            omega
          obtain ⟨c, cs, hxenc, hxvs⟩ := encV_shape x
          have hV := ihV x (encArrTail xs ++ ']' :: rest) hszx.1
            (delim_encArrTail xs rest)
          have hA := ihA xs rest hszx.2
          have hV2 := hV
          rw [hxenc, List.cons_append] at hV2
          rw [show encV (JValue.arr (x :: xs))
              = '[' :: (encV x ++ encArrTail xs ++ [']']) from by simp [encV],
            pValue.eq_def]
          simp only [List.cons_append, List.append_assoc,
            List.singleton_append, List.nil_append]
          rw [skipWs_encV x (encArrTail xs ++ ']' :: rest), hxenc,
            List.cons_append]
          simp [valueStart_ne c hxvs ']' (by decide), hV2,
            skipWs_encArrTail, hA]
      | obj kvs =>
        cases kvs with
        | nil =>
          rw [show encV (JValue.obj []) = ['\x7b', '\x7d'] from
            by simp [encV], pValue.eq_def]
          simp [skipWs, wsChar]
        | cons kv kvs =>
          obtain ⟨k, v⟩ := kv
          have hszv : JValue.size v + 1 ≤ f ∧ JValue.sizeObj kvs ≤ f := by
            rw [show JValue.size (JValue.obj ((k, v) :: kvs))
                = 1 + (2 + JValue.size v + JValue.sizeObj kvs) from
              by simp [JValue.size, JValue.sizeObj]] at hsz
            omega
          have hM := ihM k v (encObjTail kvs ++ '\x7d' :: rest) hszv.1
            (delim_encObjTail kvs rest)
          have hO := ihO kvs rest hszv.2
          have hM2 := hM
          rw [encMember_eq, List.cons_append] at hM2
          simp only [List.append_assoc, List.cons_append] at hM2
          rw [show encV (JValue.obj ((k, v) :: kvs))
              = '\x7b' :: (encMember k v ++ encObjTail kvs ++ ['\x7d']) from
            by simp [encV], pValue.eq_def]
          simp only [List.cons_append, List.append_assoc,
            List.singleton_append, List.nil_append]
          rw [show skipWs (encMember k v ++ (encObjTail kvs ++
              '\x7d' :: rest))
              = encMember k v ++ (encObjTail kvs ++ '\x7d' :: rest) from
            by rw [encMember_eq, List.cons_append,
              skipWs_valueStart _ _ (by decide)]]
          rw [encMember_eq, List.cons_append]
          simp [hM2, skipWs_encObjTail, hO]
    · intro xs rest hsz
      cases xs with
      | nil =>
        rw [pArrTail.eq_def]
        simp [encArrTail]
      | cons x xs =>
        have hszx : JValue.size x ≤ f ∧ JValue.sizeArr xs ≤ f := by
          rw [show JValue.sizeArr (x :: xs)
              = 1 + JValue.size x + JValue.sizeArr xs from
            by simp [JValue.sizeArr]] at hsz
          omega
        have hV := ihV x (encArrTail xs ++ ']' :: rest) hszx.1
          (delim_encArrTail xs rest)
        have hA := ihA xs rest hszx.2
        rw [show encArrTail (x :: xs)
            = ',' :: ' ' :: (encV x ++ encArrTail xs) from
          by simp [encArrTail], pArrTail.eq_def]
        simp only [List.cons_append, List.append_assoc]
        rw [show skipWs (' ' :: (encV x ++ (encArrTail xs ++ ']' :: rest)))
            = skipWs (encV x ++ (encArrTail xs ++ ']' :: rest)) from
          by simp [skipWs, wsChar]]
        rw [skipWs_encV]
        simp [hV, skipWs_encArrTail, hA]
    · intro kvs rest hsz
      cases kvs with
      | nil =>
        rw [pObjTail.eq_def]
        simp [encObjTail]
      | cons kv kvs =>
        obtain ⟨k, v⟩ := kv
        have hszv : JValue.size v + 1 ≤ f ∧ JValue.sizeObj kvs ≤ f := by
          rw [show JValue.sizeObj ((k, v) :: kvs)
              = 2 + JValue.size v + JValue.sizeObj kvs from
            by simp [JValue.sizeObj]] at hsz
          omega
        have hM := ihM k v (encObjTail kvs ++ '\x7d' :: rest) hszv.1
          (delim_encObjTail kvs rest)
        have hO := ihO kvs rest hszv.2
        rw [show encObjTail ((k, v) :: kvs)
            = ',' :: ' ' :: (encMember k v ++ encObjTail kvs) from
          by simp [encObjTail], pObjTail.eq_def]
        simp only [List.cons_append, List.append_assoc]
        rw [show skipWs (' ' :: (encMember k v ++ (encObjTail kvs ++
            '\x7d' :: rest)))
            = skipWs (encMember k v ++ (encObjTail kvs ++ '\x7d' :: rest)) from
          by simp [skipWs, wsChar]]
        rw [show skipWs (encMember k v ++ (encObjTail kvs ++ '\x7d' :: rest))
            = encMember k v ++ (encObjTail kvs ++ '\x7d' :: rest) from
          by rw [encMember_eq, List.cons_append,
            skipWs_valueStart _ _ (by decide)]]
        simp [hM, skipWs_encObjTail, hO]
    · intro k v tail hsz htail
      have hV := ihV v tail (by omega) htail
      rw [encMember_eq, List.cons_append, pMember.eq_def]
      simp only [List.append_assoc, List.cons_append]
      rw [show encStrChars k.data ++ '"' :: ':' :: ' ' :: (encV v ++ tail)
          = encStrChars k.data ++ '"' :: (':' :: ' ' :: (encV v ++ tail)) from
        rfl]
      simp only [pStrChars_enc k.data (':' :: ' ' :: (encV v ++ tail))]
      rw [show skipWs (':' :: ' ' :: (encV v ++ tail))
          = ':' :: ' ' :: (encV v ++ tail) from by simp [skipWs, wsChar]]
      have hsw : skipWs (' ' :: (encV v ++ tail)) = encV v ++ tail := by
        rw [show skipWs (' ' :: (encV v ++ tail))
            = skipWs (encV v ++ tail) from by simp [skipWs, wsChar],
          skipWs_encV]
      simp [hsw, hV]

theorem encV_length_pos (v : JValue) : 1 ≤ (encV v).length := by
  obtain ⟨c, cs, henc, _⟩ := encV_shape v
  rw [henc]
  simp

theorem size_le_bound (n : Nat) :
    (∀ v : JValue, (encV v).length ≤ n →
       JValue.size v ≤ 2 * (encV v).length) ∧
    (∀ xs : List JValue, (encArrTail xs).length ≤ n →
       JValue.sizeArr xs ≤ 2 * (encArrTail xs).length + 2) ∧
    (∀ kvs : List (String × JValue), (encObjTail kvs).length ≤ n →
       JValue.sizeObj kvs ≤ 2 * (encObjTail kvs).length + 2) := by
  induction n with
  | zero =>
    refine ⟨?_, ?_, ?_⟩
    · intro v hlen
      have := encV_length_pos v
      omega
    · intro xs hlen
      cases xs with
      | nil => simp [JValue.sizeArr]
      | cons x xs =>
        rw [show (encArrTail (x :: xs)).length
            = 2 + (encV x).length + (encArrTail xs).length from
          by simp [encArrTail]; omega] at hlen
        omega
    · intro kvs hlen
      cases kvs with
      | nil => simp [JValue.sizeObj, encObjTail]
      | cons kv kvs =>
        obtain ⟨k, v⟩ := kv
        rw [show (encObjTail ((k, v) :: kvs)).length
            = 2 + (encMember k v).length + (encObjTail kvs).length from
          by simp [encObjTail]; omega] at hlen
        omega
  | succ m ih =>
    obtain ⟨ihV, ihA, ihO⟩ := ih
    have hmem : ∀ (k : String) (v : JValue), (encMember k v).length
        = 4 + (encStrChars k.data).length + (encV v).length := by
      intro k v
      simp [encMember]
      omega
    refine ⟨?_, ?_, ?_⟩
    · intro v hlen
      cases v with
      | null => simp [JValue.size, encV, nullChars]
      | bool b => cases b <;> simp [JValue.size, encV, boolChars]
      | int w =>
        have := encV_length_pos (JValue.int w)
        rw [show JValue.size (JValue.int w) = 1 from by simp [JValue.size]]
        omega
      | str s =>
        have := encV_length_pos (JValue.str s)
        rw [show JValue.size (JValue.str s) = 1 from by simp [JValue.size]]
        omega
      | arr xs =>
        cases xs with
        | nil => simp [JValue.size, JValue.sizeArr, encV]
        | cons x xs =>
          have hl : (encV (JValue.arr (x :: xs))).length
              = 2 + (encV x).length + (encArrTail xs).length := by
            simp [encV]
            omega
          rw [hl] at hlen
          have h1 := ihV x (by omega)
          have h2 := ihA xs (by omega)
          rw [show JValue.size (JValue.arr (x :: xs))
              = 2 + JValue.size x + JValue.sizeArr xs from
            by simp [JValue.size, JValue.sizeArr]; omega, hl]
          omega
      | obj kvs =>
        cases kvs with
        | nil => simp [JValue.size, JValue.sizeObj, encV]
        | cons kv kvs =>
          obtain ⟨k, v⟩ := kv
          have hl : (encV (JValue.obj ((k, v) :: kvs))).length
              = 2 + (encMember k v).length + (encObjTail kvs).length := by
            simp [encV]
            omega
          rw [hl, hmem k v] at hlen
          have h1 := ihV v (by omega)
          have h2 := ihO kvs (by omega)
          rw [show JValue.size (JValue.obj ((k, v) :: kvs))
              = 3 + JValue.size v + JValue.sizeObj kvs from
            by simp [JValue.size, JValue.sizeObj]; omega, hl, hmem k v]
          omega
    · intro xs hlen
      cases xs with
      | nil => simp [JValue.sizeArr]
      | cons x xs =>
        have hl : (encArrTail (x :: xs)).length
            = 2 + (encV x).length + (encArrTail xs).length := by
          simp [encArrTail]
          omega
        rw [hl] at hlen
        have h1 := ihV x (by omega)
        have h2 := ihA xs (by omega)
        rw [show JValue.sizeArr (x :: xs)
            = 1 + JValue.size x + JValue.sizeArr xs from
          by simp [JValue.sizeArr], hl]
        omega
    · intro kvs hlen
      cases kvs with
      | nil => simp [JValue.sizeObj, encObjTail]
      | cons kv kvs =>
        obtain ⟨k, v⟩ := kv
        have hl : (encObjTail ((k, v) :: kvs)).length
            = 2 + (encMember k v).length + (encObjTail kvs).length := by
          simp [encObjTail]
          omega
        rw [hl, hmem k v] at hlen
        have h1 := ihV v (by omega)
        have h2 := ihO kvs (by omega)
        rw [show JValue.sizeObj ((k, v) :: kvs)
            = 2 + JValue.size v + JValue.sizeObj kvs from
          by simp [JValue.sizeObj], hl, hmem k v]
        omega

/-- C9: decoding the wire text produced for any supported argument value
returns exactly that value. -/
theorem C9_roundtrip (v : JValue) : jsonDecode (jsonEncode v) = some v := by
  have hb := (size_le_bound (encV v).length).1 v (le_refl _)
  have hparse := (parser_enc_spec (2 * (encV v).length + 2)).1 v []
    (by omega) rfl
  rw [List.append_nil] at hparse
  unfold jsonDecode jsonEncode
  rw [show (String.mk (encV v)).data = encV v from rfl]
  have hskip : skipWs (encV v) = encV v := by
    have h2 := skipWs_encV v []
    rwa [List.append_nil] at h2
  rw [hskip, hparse]
  simp [skipWs]
